import Mathlib

/-!
# robocar-recorder-store: the record handler `Recorder.onRecordMsg`

A shallow embedding of `pkg/recorder/recorder.go`.

* Go strings are Lean strings, `fmt.Sprintf` is modelled for the verbs the
  package uses, byte slices are lists of bytes, `float32` values are their
  IEEE-754 bit patterns (the handler only copies them; `encoding/json` only
  asks whether they are finite).
* The handler talks to four library functions: `proto.Unmarshal`,
  `os.MkdirAll`, `os.WriteFile` and `json.Marshal`.  The first three are the
  fields of an environment `Env σ` over an arbitrary file-system state `σ`;
  `json.Marshal` on a `Record` is modelled from the struct tags of `Record`.
* The handler runs in a `World σ`: the file-system state, the history of the
  library calls made so far (with their outcomes), standard output and the
  error log.
* `MemFS` is a reference file system (a tree of directories and files,
  addressed by path components) used where a claim speaks about what is on
  disk after a run.
-/

namespace recorder

/-! ## Strings, bytes, formatting -/

/-- A Go byte slice. -/
abbrev Bytes := List UInt8

/-- Worker of `Sprintf`: the verbs `%s`, `%v` and `%T` consume the next
operand (already rendered as text); every other character is copied. -/
def sprintfAux : List Char → List String → List Char
  | [], _ => []
  | '%' :: 's' :: rest, a :: args => a.data ++ sprintfAux rest args
  | '%' :: 'v' :: rest, a :: args => a.data ++ sprintfAux rest args
  | '%' :: 'T' :: rest, a :: args => a.data ++ sprintfAux rest args
  | c :: rest, args => c :: sprintfAux rest args

/-- Model of `fmt.Sprintf` for the formats of this package: operands are
strings, errors (their message) and, for `%T`, a type name. -/
def Sprintf (format : String) (args : List String) : String :=
  ⟨sprintfAux format.data args⟩

/-- A Go `error` value: `none` is `nil`, `some m` an error with message `m`. -/
abbrev GoError := Option String

/-! ## The protobuf messages of `events` (the fields the package touches) -/

/-- A `float32`, as its IEEE-754 binary32 bit pattern. -/
structure Float32 where
  bits : Nat
  deriving DecidableEq, Repr

/-- The biased exponent field of a binary32 pattern. -/
def Float32.exponent (f : Float32) : Nat := f.bits / 2 ^ 23 % 256

/-- Whether `math.IsInf(f, 0) || math.IsNaN(f)` is false: exponent not all ones. -/
def Float32.isFinite (f : Float32) : Bool := f.exponent != 255

/-- Whether the value compares equal to zero (`+0` or `-0`). -/
def Float32.isZero (f : Float32) : Bool := f.bits % 2 ^ 31 == 0

/-- The `float32` zero, the default of an unset protobuf `float` field. -/
def Float32.zero : Float32 := ⟨0⟩

/-- The enum `events.DriveMode` of the protobuf package the recorder imports. -/
inductive DriveMode where
  | INVALID
  | USER
  | PILOT
  deriving DecidableEq, Repr

/-- The generated `DriveMode.String()`: the symbolic name of the value. -/
def DriveMode.String : DriveMode → String
  | .INVALID => "INVALID"
  | .USER => "USER"
  | .PILOT => "PILOT"

/-- A protobuf `Timestamp`. -/
structure Timestamp where
  seconds : Int
  nanos : Int
  deriving DecidableEq, Repr

/-- The message `events.FrameRef`. -/
structure FrameRef where
  name : String
  id : String
  createdAt : Option Timestamp
  deriving DecidableEq, Repr

/-- The message `events.FrameMessage`. -/
structure FrameMessage where
  id : Option FrameRef
  frame : Bytes
  deriving DecidableEq, Repr

/-- The message `events.SteeringMessage`. -/
structure SteeringMessage where
  steering : Float32
  confidence : Float32
  frameRef : Option FrameRef
  deriving DecidableEq, Repr

/-- The message `events.DriveModeMessage`. -/
structure DriveModeMessage where
  driveMode : DriveMode
  deriving DecidableEq, Repr

/-- The message `events.RecordMessage`; sub-messages are pointers and may be nil. -/
structure RecordMessage where
  frame : Option FrameMessage
  steering : Option SteeringMessage
  autopilotSteering : Option SteeringMessage
  driveMode : Option DriveModeMessage
  recordSet : String
  deriving DecidableEq, Repr

/-- Generated getter `(*FrameRef).GetId`: the empty string on a nil receiver. -/
def FrameRef.GetId : Option FrameRef → String
  | some x => x.id
  | none => ""

/-- Generated getter `(*FrameMessage).GetId`: nil on a nil receiver. -/
def FrameMessage.GetId : Option FrameMessage → Option FrameRef
  | some x => x.id
  | none => none

/-- Generated getter `(*FrameMessage).GetFrame`: nil (empty) on a nil receiver. -/
def FrameMessage.GetFrame : Option FrameMessage → Bytes
  | some x => x.frame
  | none => []

/-- Generated getter `(*SteeringMessage).GetSteering`: zero on a nil receiver. -/
def SteeringMessage.GetSteering : Option SteeringMessage → Float32
  | some x => x.steering
  | none => Float32.zero

/-- Generated getter `(*DriveModeMessage).GetDriveMode`: the zero enum value on
a nil receiver. -/
def DriveModeMessage.GetDriveMode : Option DriveModeMessage → DriveMode
  | some x => x.driveMode
  | none => DriveMode.INVALID

/-- Generated getter `(*RecordMessage).GetFrame`. -/
def RecordMessage.GetFrame (msg : RecordMessage) : Option FrameMessage := msg.frame

/-- Generated getter `(*RecordMessage).GetSteering`. -/
def RecordMessage.GetSteering (msg : RecordMessage) : Option SteeringMessage := msg.steering

/-- Generated getter `(*RecordMessage).GetAutopilotSteering`. -/
def RecordMessage.GetAutopilotSteering (msg : RecordMessage) : Option SteeringMessage :=
  msg.autopilotSteering

/-- Generated getter `(*RecordMessage).GetDriveMode`. -/
def RecordMessage.GetDriveMode (msg : RecordMessage) : Option DriveModeMessage := msg.driveMode

/-- Generated getter `(*RecordMessage).GetRecordSet`. -/
def RecordMessage.GetRecordSet (msg : RecordMessage) : String := msg.recordSet

/-- The frame identifier `msg.GetFrame().GetId().GetId()`. -/
def RecordMessage.frameId (msg : RecordMessage) : String :=
  FrameRef.GetId (FrameMessage.GetId msg.GetFrame)

/-! ## `Record` and its JSON serialisation -/

/-- The struct `Record` of `recorder.go`. -/
structure Record where
  UserAngle : Float32
  AutopilotAngle : Float32
  CamImageArray : String
  DriveMode : String
  deriving DecidableEq, Repr

/-- A JSON value of the kinds a `Record` holds. -/
inductive JsonValue where
  | number (f : Float32)
  | string (s : String)
  deriving DecidableEq, Repr

/-- A JSON object: its members in order, name and value. -/
abbrev JsonObject := List (String × JsonValue)

/-- One exported struct field as `encoding/json` sees it through reflection:
the Go field name, the value of the `json` key of its struct tag, its value. -/
structure StructField where
  goName : String
  tag : String
  value : JsonValue
  deriving DecidableEq, Repr

/-- The fields of `Record` with the `json` tags written in `recorder.go`. -/
def Record.structFields (r : Record) : List StructField :=
  [ ⟨"UserAngle", "user/angle,", .number r.UserAngle⟩,
    ⟨"AutopilotAngle", "autopilot/angle,", .number r.AutopilotAngle⟩,
    ⟨"CamImageArray", "cam/image_array,", .string r.CamImageArray⟩,
    ⟨"DriveMode", "drive/mode,omitempty", .string r.DriveMode⟩ ]

/-- Cut a character list at the first comma (`strings.Cut(s, ",")`): the text
before it and the text after it (empty when there is no comma). -/
def cutComma : List Char → List Char × List Char
  | [] => ([], [])
  | c :: cs => if c = ',' then ([], cs) else ((cutComma cs).1.cons c, (cutComma cs).2)

/-- The tag rule `parseTag` of `encoding/json`: the member name is the tag text
before the first comma, the rest are the options. -/
def parseTag (tag : String) : String × String :=
  (⟨(cutComma tag.data).1⟩, ⟨(cutComma tag.data).2⟩)

/-- Split a comma-separated option list. -/
def splitComma : List Char → List (List Char)
  | [] => [[]]
  | c :: cs =>
    if c = ',' then [] :: splitComma cs
    else match splitComma cs with
      | [] => [[c]]
      | w :: ws => (c :: w) :: ws

/-- The rule `tagOptions.Contains` of `encoding/json`: one of the
comma-separated options is the given one. -/
def tagOptionsContains (opts : String) (optionName : String) : Bool :=
  !opts.isEmpty && (splitComma opts.data).contains optionName.data

/-- The rule `isValidTag` of `encoding/json` (letters and digits taken as the
ASCII ones): a non-empty name of letters, digits and permitted punctuation. -/
def isValidTag (s : String) : Bool :=
  !s.isEmpty &&
    s.data.all fun c =>
      "!#$%&()*+-./:;<=>?@[]^_\x7b|\x7d~ ".data.contains c || c.isAlpha || c.isDigit

/-- The rule `isEmptyValue` of `encoding/json` on these values. -/
def isEmptyValue : JsonValue → Bool
  | .number f => f.isZero
  | .string s => s.isEmpty

/-- Encode the fields of a struct in order, as the struct encoder of
`encoding/json` does: a field tagged `-` is skipped, the member name is the tag
name when valid and the Go field name otherwise, an `omitempty` field with an
empty value is skipped, and a NaN or infinite number aborts with
`UnsupportedValueError`. -/
def encodeFields : List StructField → Except String JsonObject
  | [] => .ok []
  | f :: fs =>
    if f.tag = "-" then encodeFields fs
    else
      let name := if isValidTag (parseTag f.tag).1 then (parseTag f.tag).1 else f.goName
      if tagOptionsContains (parseTag f.tag).2 "omitempty" && isEmptyValue f.value then
        encodeFields fs
      else
        match f.value with
        | .number x =>
          if x.isFinite then (encodeFields fs).map fun rest => (name, f.value) :: rest
          else .error "json: unsupported value"
        | .string _ => (encodeFields fs).map fun rest => (name, f.value) :: rest

/-- Model of `json.Marshal(&record)`: the JSON object whose text is returned. -/
def jsonMarshal (r : Record) : Except String JsonObject :=
  encodeFields r.structFields

/-- The member names of a JSON object, in order. -/
def JsonObject.names (o : JsonObject) : List String := o.map Prod.fst

/-! ## The environment and the world -/

/-- What is handed to `os.WriteFile`: raw bytes, or the text of a JSON object
produced by `json.Marshal` (kept as the object it encodes). -/
inductive FileData where
  | raw (b : Bytes)
  | jsonText (o : JsonObject)
  deriving DecidableEq, Repr

/-- The library functions the handler calls, over a file-system state `σ`.
`MkdirAll` and `WriteFile` return the error (nil on success) and the new state. -/
structure Env (σ : Type) where
  Unmarshal : Bytes → Except String RecordMessage
  MkdirAll : String → Nat → σ → GoError × σ
  WriteFile : String → FileData → Nat → σ → GoError × σ

/-- One library call made by the handler, with its outcome. -/
inductive Call where
  | mkdirAll (path : String) (perm : Nat) (err : GoError)
  | writeFile (name : String) (data : FileData) (perm : Nat) (err : GoError)
  | marshal (v : Record) (err : GoError)
  deriving DecidableEq, Repr

/-- The state a handler runs in. -/
structure World (σ : Type) where
  fs : σ
  calls : List Call
  stdout : List String
  errlog : List String

/-- A world with the given file system and empty histories. -/
def World.fresh {σ : Type} (fs : σ) : World σ := ⟨fs, [], [], []⟩

/-- Write to standard output (`fmt.Printf`). -/
def World.print {σ : Type} (w : World σ) (s : String) : World σ :=
  { w with stdout := w.stdout ++ [s] }

/-- Log at error level (`zap.S().Errorf`). -/
def World.Errorf {σ : Type} (w : World σ) (s : String) : World σ :=
  { w with errlog := w.errlog ++ [s] }

/-- Call `os.MkdirAll` and record the call. -/
def World.MkdirAll {σ : Type} (env : Env σ) (path : String) (perm : Nat) (w : World σ) :
    GoError × World σ :=
  ((env.MkdirAll path perm w.fs).1,
    { w with fs := (env.MkdirAll path perm w.fs).2,
             calls := w.calls ++ [Call.mkdirAll path perm (env.MkdirAll path perm w.fs).1] })

/-- Call `os.WriteFile` and record the call. -/
def World.WriteFile {σ : Type} (env : Env σ) (name : String) (data : FileData) (perm : Nat)
    (w : World σ) : GoError × World σ :=
  ((env.WriteFile name data perm w.fs).1,
    { w with fs := (env.WriteFile name data perm w.fs).2,
             calls := w.calls ++ [Call.writeFile name data perm (env.WriteFile name data perm w.fs).1] })

/-- The error of an `Except` as a Go error. -/
def errOf {α : Type} : Except String α → GoError
  | .ok _ => none
  | .error e => some e

/-- Call `json.Marshal` on a record and record the call. -/
def World.Marshal {σ : Type} (v : Record) (w : World σ) : Except String JsonObject × World σ :=
  (jsonMarshal v, { w with calls := w.calls ++ [Call.marshal v (errOf (jsonMarshal v))] })

/-! ## The package `recorder` -/

/-- The struct `Recorder` (the MQTT client and the cancel channel carry no data
the handler reads and are left out). -/
structure Recorder where
  recordsDir : String
  recordTopic : String
  deriving DecidableEq, Repr

/-- The package variable `FileNameFormat`; nothing in the repository assigns it. -/
def FileNameFormat : String := "record_%s.json"

/-- The file mode `os.FileMode(0755)`. -/
def perm0755 : Nat := 0o755

/-- The constructor `New`: create the records directory, then the recorder. -/
def New {σ : Type} (env : Env σ) (recordsDir recordTopic : String) (w : World σ) :
    Except String Recorder × World σ :=
  match World.MkdirAll env recordsDir perm0755 w with
  | (some err, w1) => (.error (Sprintf "unable to create %v directory: %v" [recordsDir, err]), w1)
  | (none, w1) => (.ok ⟨recordsDir, recordTopic⟩, w1)

/-- The local `recordDir` of `onRecordMsg`. -/
def recordDir (r : Recorder) (msg : RecordMessage) : String :=
  Sprintf "%s/%s" [r.recordsDir, msg.GetRecordSet]

/-- The local `imgDir` of `onRecordMsg`. -/
def imgDir (r : Recorder) (msg : RecordMessage) : String :=
  Sprintf "%s/cam" [recordDir r msg]

/-- The local `imgRef` of `onRecordMsg`. -/
def imgRef (msg : RecordMessage) : String :=
  Sprintf "cam/cam-image_array_%s.jpg" [FrameRef.GetId (FrameMessage.GetId msg.GetFrame)]

/-- The local `imgName` of `onRecordMsg`. -/
def imgName (r : Recorder) (msg : RecordMessage) : String :=
  Sprintf "%s/cam-image_array_%s.jpg" [imgDir r msg, FrameRef.GetId (FrameMessage.GetId msg.GetFrame)]

/-- The local `jsonDir` of `onRecordMsg`. -/
def jsonDir (r : Recorder) (msg : RecordMessage) : String :=
  Sprintf "%s/" [recordDir r msg]

/-- The local `recordName` of `onRecordMsg`. -/
def recordName (r : Recorder) (msg : RecordMessage) : String :=
  Sprintf "%s/%s"
    [jsonDir r msg, Sprintf FileNameFormat [FrameRef.GetId (FrameMessage.GetId msg.GetFrame)]]

/-- The local `record` of `onRecordMsg`. -/
def record (msg : RecordMessage) : Record :=
  { UserAngle := SteeringMessage.GetSteering msg.GetSteering
    CamImageArray := imgRef msg
    AutopilotAngle := SteeringMessage.GetSteering msg.GetAutopilotSteering
    DriveMode := (DriveModeMessage.GetDriveMode msg.GetDriveMode).String }

/-- The handler `(*Recorder).onRecordMsg`, statement by statement; its locals
are the functions above. The receiver is a pointer, so the recorder is
returned next to the new world. -/
def onRecordMsg {σ : Type} (env : Env σ) (r : Recorder) (payload : Bytes) (w : World σ) :
    Recorder × World σ :=
  match env.Unmarshal payload with
  | .error err =>
    (r, w.Errorf (Sprintf "unable to unmarshal protobuf %T: %v" ["events.RecordMessage", err]))
  | .ok msg =>
    let w0 := w.print (Sprintf "record %s: %s\r"
      [msg.GetRecordSet, FrameRef.GetId (FrameMessage.GetId msg.GetFrame)])
    match World.MkdirAll env (imgDir r msg) perm0755 w0 with
    | (some err, w1) =>
      (r, w1.Errorf (Sprintf "unable to create %v directory: %v" [imgDir r msg, err]))
    | (none, w1) =>
      match World.WriteFile env (imgName r msg) (.raw (FrameMessage.GetFrame msg.GetFrame))
          perm0755 w1 with
      | (some err, w2) =>
        (r, w2.Errorf (Sprintf "unable to write img file %v: %v" [imgName r msg, err]))
      | (none, w2) =>
        match World.MkdirAll env (jsonDir r msg) perm0755 w2 with
        | (some err, w3) =>
          (r, w3.Errorf (Sprintf "unable to create %v directory: %v" [jsonDir r msg, err]))
        | (none, w3) =>
          match World.Marshal (record msg) w3 with
          | (.error err, w4) =>
            (r, w4.Errorf (Sprintf "unable to marshal json content: %v" [err]))
          | (.ok jsonBytes, w4) =>
            match World.WriteFile env (recordName r msg) (.jsonText jsonBytes) perm0755 w4 with
            | (some err, w5) =>
              (r, w5.Errorf (Sprintf "unable to write json file %v: %v" [recordName r msg, err]))
            | (none, w5) => (r, w5)

/-! ## A reference file system

`MemFS` is a sequential file system without links and without permissions: a
map from lists of path components to nodes. A path string resolves to its
non-empty `/`-separated components from a single root, so repeated and
trailing separators are ignored as the kernel does; the names `.` and `..` are
not given their special meaning. -/

/-- Worker of `components`: `cur` is the component read so far. -/
def componentsAux : List Char → List Char → List (List Char)
  | [], cur => if cur = [] then [] else [cur]
  | c :: cs, cur =>
    if c = '/' then
      if cur = [] then componentsAux cs [] else cur :: componentsAux cs []
    else componentsAux cs (cur ++ [c])

/-- The non-empty components of a path string. -/
def components (p : String) : List String :=
  (componentsAux p.data []).map String.mk

/-- Worker of `squeeze`: `prev` tells whether the character before was a
separator. -/
def squeezeAux : List Char → Bool → List Char
  | [], _ => []
  | c :: cs, prev =>
    if c = '/' then
      if prev then squeezeAux cs true else c :: squeezeAux cs true
    else c :: squeezeAux cs false

/-- A path string with every run of consecutive separators collapsed to one
separator; nothing else is changed, so a leading or a trailing separator
stays. Two path strings with the same image differ only in repeated
separators. -/
def squeeze (p : String) : String :=
  ⟨squeezeAux p.data false⟩

/-- A node of the tree. -/
inductive Node where
  | dir
  | file (data : FileData)
  deriving DecidableEq, Repr

/-- The state of the reference file system: the node at each component path,
if any. The root, `[]`, is always a directory. -/
abbrev MemFS := List String → Option Node

/-- The file system with nothing but the root. -/
def MemFS.empty : MemFS := fun _ => none

/-- Put a node at a component path. -/
def MemFS.set (s : MemFS) (k : List String) (n : Node) : MemFS :=
  fun k2 => if k2 = k then some n else s k2

/-- Whether a component path is a directory. -/
def MemFS.isDir (s : MemFS) (k : List String) : Bool :=
  decide (k = []) || decide (s k = some Node.dir)

/-- Walk down from `pre` along the components, creating the directories that
are missing; stop with `ENOTDIR` at a component that is a file. -/
def MemFS.mkdirFrom : List String → List String → MemFS → GoError × MemFS
  | _, [], s => (none, s)
  | pre, c :: cs, s =>
    match s (pre ++ [c]) with
    | some (Node.file _) => (some "not a directory", s)
    | some Node.dir => MemFS.mkdirFrom (pre ++ [c]) cs s
    | none => MemFS.mkdirFrom (pre ++ [c]) cs (s.set (pre ++ [c]) Node.dir)

/-- The reference `os.MkdirAll`: the empty path is an error, otherwise every
missing directory along the path is created. The mode is not recorded. -/
def MemFS.MkdirAll (path : String) (_perm : Nat) (s : MemFS) : GoError × MemFS :=
  if path = "" then (some "no such file or directory", s)
  else MemFS.mkdirFrom [] (components path) s

/-- The reference `os.WriteFile`: the name must have a last component and no
trailing separator, every directory above it must exist, and it must not be a
directory itself; then the file is created or replaced with the data. -/
def MemFS.WriteFile (name : String) (data : FileData) (_perm : Nat) (s : MemFS) :
    GoError × MemFS :=
  if components name = [] then (some "is a directory", s)
  else if name.data.getLast? = some '/' then (some "not a directory", s)
  else if !((components name).dropLast.inits.all s.isDir) then
    (some "no such file or directory", s)
  else if s (components name) = some Node.dir then (some "is a directory", s)
  else (none, s.set (components name) (Node.file data))

/-- The reference `os.ReadFile`. -/
def MemFS.ReadFile (name : String) (s : MemFS) : Option FileData :=
  match s (components name) with
  | some (Node.file d) => some d
  | _ => none

/-- The reference environment, for a given decoder. -/
def memEnv (unmarshal : Bytes → Except String RecordMessage) : Env MemFS :=
  ⟨unmarshal, MemFS.MkdirAll, MemFS.WriteFile⟩

/-- A device that serves `n` more calls like `MemFS` does and fails every
later call with an input/output error, leaving the tree as it is. The state is
the tree and the number of calls still served. -/
def failingEnv (unmarshal : Bytes → Except String RecordMessage) : Env (MemFS × Nat) :=
  { Unmarshal := unmarshal
    MkdirAll := fun path perm s =>
      match s.2 with
      | 0 => (some "input/output error", s)
      | n + 1 => ((MemFS.MkdirAll path perm s.1).1, ((MemFS.MkdirAll path perm s.1).2, n))
    WriteFile := fun name data perm s =>
      match s.2 with
      | 0 => (some "input/output error", s)
      | n + 1 => ((MemFS.WriteFile name data perm s.1).1, ((MemFS.WriteFile name data perm s.1).2, n)) }

/-! ## The fixtures of `recorder_test.go` -/

/-- The bytes of the string "frame content". -/
def frameContent : Bytes := [102, 114, 97, 109, 101, 32, 99, 111, 110, 116, 101, 110, 116]

/-- The helper `generateMessage` of the test, with the clock reading passed in. -/
def generateMessage (now : Timestamp) (id recordSet : String) (userAngle autopilotAngle : Float32)
    (driveMode : DriveMode) : RecordMessage :=
  { frame := some
      { id := some ⟨Sprintf "framie-%s" [id], id, some now⟩
        frame := frameContent }
    steering := some ⟨userAngle, ⟨0x3F800000⟩, some ⟨Sprintf "framie-%s" [id], id, some now⟩⟩
    driveMode := some ⟨driveMode⟩
    autopilotSteering := some ⟨autopilotAngle, ⟨0x3F4CCCCD⟩, some ⟨Sprintf "framie-%s" [id], id, some now⟩⟩
    recordSet := recordSet }

/-- The `float32` constant `-0.5`. -/
def f32NegHalf : Float32 := ⟨0xBF000000⟩

/-- The `float32` constant `0.6` (the nearest binary32 value). -/
def f32SixTenths : Float32 := ⟨0x3F19999A⟩

/-- A quiet NaN. -/
def f32NaN : Float32 := ⟨0x7FC00000⟩

/-- The message of the test case "default". -/
def testMessage : RecordMessage :=
  generateMessage ⟨0, 0⟩ "1" "default" f32NegHalf f32SixTenths DriveMode.PILOT

/-- A decoder for a small table of payloads: payload `[n]` is the `n`-th
message of the table; everything else is rejected. -/
def tableUnmarshal (table : List RecordMessage) : Bytes → Except String RecordMessage
  | [n] =>
    match table.get? n.toNat with
    | some msg => .ok msg
    | none => .error "proto: cannot parse invalid wire-format data"
  | _ => .error "proto: cannot parse invalid wire-format data"


/-- A message whose user steering value is a NaN. -/
def nanMessage : RecordMessage :=
  generateMessage ⟨0, 0⟩ "2" "default" f32NaN f32SixTenths DriveMode.USER

/-- The recorder of the test: records go below `tmp`. -/
def testRecorder : Recorder := ⟨"tmp", "topic"⟩

/-- The decoder of the tests: payload `[0]` is `testMessage`, payload `[1]` is
`nanMessage`. -/
def testUnmarshal : Bytes → Except String RecordMessage :=
  tableUnmarshal [testMessage, nanMessage]

/-- The file system of the test before the handler runs: the records directory
exists and is empty. -/
def testFS : MemFS := (MemFS.MkdirAll "tmp" perm0755 MemFS.empty).2

/-- A message with a separator in its record-set name. -/
def clashMessageA : RecordMessage :=
  generateMessage ⟨0, 0⟩ "c" "a/cam/cam-image_array_b" f32NegHalf f32SixTenths DriveMode.USER

/-- A message with a separator in its frame identifier. -/
def clashMessageB : RecordMessage :=
  generateMessage ⟨0, 0⟩ "b/cam/cam-image_array_c" "a" f32NegHalf f32SixTenths DriveMode.USER

/-! ## Observations on a history of calls -/

/-- Whether a call is a file-system call that returned an error. -/
def Call.fsFailed : Call → Bool
  | .mkdirAll _ _ err => err.isSome
  | .writeFile _ _ _ err => err.isSome
  | .marshal _ _ => false

/-- The file writes issued in a history, in order: name and data. -/
def fileWrites : List Call → List (String × FileData)
  | [] => []
  | .writeFile name data _ _ :: cs => (name, data) :: fileWrites cs
  | _ :: cs => fileWrites cs

/-- Whether a call writes the text of a JSON object. -/
def Call.isJsonWrite : Call → Bool
  | .writeFile _ (.jsonText _) _ _ => true
  | _ => false

/-- The calls a run of the handler adds to the history of a fresh world. -/
def callsOf {σ : Type} (env : Env σ) (r : Recorder) (payload : Bytes) (fs : σ) : List Call :=
  (onRecordMsg env r payload (World.fresh fs)).2.calls

/-- The file system a run of the handler leaves. -/
def fsAfter {σ : Type} (env : Env σ) (r : Recorder) (payload : Bytes) (fs : σ) : σ :=
  (onRecordMsg env r payload (World.fresh fs)).2.fs

/-! ## Formatting lemmas -/

theorem recordDir_eq (r : Recorder) (msg : RecordMessage) :
    recordDir r msg = r.recordsDir ++ "/" ++ msg.recordSet := by
  apply String.ext; simp [recordDir, RecordMessage.GetRecordSet, Sprintf, sprintfAux]

theorem imgDir_eq (r : Recorder) (msg : RecordMessage) :
    imgDir r msg = r.recordsDir ++ "/" ++ msg.recordSet ++ "/cam" := by
  apply String.ext
  simp [imgDir, recordDir, RecordMessage.GetRecordSet, Sprintf, sprintfAux]

theorem imgRef_eq (msg : RecordMessage) :
    imgRef msg = "cam/cam-image_array_" ++ msg.frameId ++ ".jpg" := by
  apply String.ext
  simp [imgRef, RecordMessage.frameId, Sprintf, sprintfAux]

theorem imgName_eq (r : Recorder) (msg : RecordMessage) :
    imgName r msg
      = r.recordsDir ++ "/" ++ msg.recordSet ++ "/cam/cam-image_array_" ++ msg.frameId ++ ".jpg" := by
  apply String.ext
  simp [imgName, imgDir, recordDir, RecordMessage.GetRecordSet, RecordMessage.frameId, Sprintf,
    sprintfAux]

theorem jsonDir_eq (r : Recorder) (msg : RecordMessage) :
    jsonDir r msg = r.recordsDir ++ "/" ++ msg.recordSet ++ "/" := by
  apply String.ext
  simp [jsonDir, recordDir, RecordMessage.GetRecordSet, Sprintf, sprintfAux]

theorem recordName_eq (r : Recorder) (msg : RecordMessage) :
    recordName r msg
      = r.recordsDir ++ "/" ++ msg.recordSet ++ "//record_" ++ msg.frameId ++ ".json" := by
  apply String.ext
  simp [recordName, jsonDir, recordDir, FileNameFormat, RecordMessage.GetRecordSet,
    RecordMessage.frameId, Sprintf, sprintfAux]

/-! ## The serialisation of a record -/

theorem parseTag_userAngle : parseTag "user/angle," = ("user/angle", "") := by decide

theorem parseTag_autopilotAngle : parseTag "autopilot/angle," = ("autopilot/angle", "") := by
  decide

theorem parseTag_camImageArray : parseTag "cam/image_array," = ("cam/image_array", "") := by
  decide

theorem parseTag_driveMode : parseTag "drive/mode,omitempty" = ("drive/mode", "omitempty") := by
  decide

theorem isValidTag_names :
    isValidTag "user/angle" = true ∧ isValidTag "autopilot/angle" = true ∧
      isValidTag "cam/image_array" = true ∧ isValidTag "drive/mode" = true := by
  decide

theorem tagOptions_facts :
    tagOptionsContains "" "omitempty" = false ∧
      tagOptionsContains "omitempty" "omitempty" = true := by
  decide

theorem tags_not_dash :
    ("user/angle," : String) ≠ "-" ∧ ("autopilot/angle," : String) ≠ "-" ∧
      ("cam/image_array," : String) ≠ "-" ∧ ("drive/mode,omitempty" : String) ≠ "-" := by
  decide

theorem jsonMarshal_eq (v : Record) :
    jsonMarshal v =
      if v.UserAngle.isFinite && v.AutopilotAngle.isFinite then
        .ok ([("user/angle", JsonValue.number v.UserAngle),
              ("autopilot/angle", JsonValue.number v.AutopilotAngle),
              ("cam/image_array", JsonValue.string v.CamImageArray)]
              ++ if v.DriveMode = "" then [] else [("drive/mode", JsonValue.string v.DriveMode)])
      else .error "json: unsupported value" := by
  have hE : ∀ s : String, s.isEmpty = decide (s = "") := by
    intro s
    by_cases h : s = ""
    · subst h; rfl
    · simpa [h] using (String.isEmpty_iff s).not.mpr h
  simp only [jsonMarshal, Record.structFields, encodeFields, parseTag_userAngle,
    parseTag_autopilotAngle, parseTag_camImageArray, parseTag_driveMode, isValidTag_names,
    tagOptions_facts, tags_not_dash, isEmptyValue, hE]
  cases h1 : v.UserAngle.isFinite <;> cases h2 : v.AutopilotAngle.isFinite <;>
    by_cases h3 : v.DriveMode = "" <;> simp [h3, Except.map]

/-! ## The runs of the handler -/

/-- The five ways a run on a decoded message can go, with the file-system
state and the history it ends in: each library call is made on the state the
previous one left, and the first failure ends the run. -/
theorem onRecordMsg_cases {σ : Type} (env : Env σ) (r : Recorder) (payload : Bytes)
    (w : World σ) (msg : RecordMessage) (h : env.Unmarshal payload = .ok msg) :
    let frame := FileData.raw (FrameMessage.GetFrame msg.GetFrame)
    let a := env.MkdirAll (imgDir r msg) perm0755 w.fs
    let b := env.WriteFile (imgName r msg) frame perm0755 a.2
    let c := env.MkdirAll (jsonDir r msg) perm0755 b.2
    let res := (onRecordMsg env r payload w).2
    (∃ e, a.1 = some e ∧ res.fs = a.2 ∧
        res.calls = w.calls ++ [Call.mkdirAll (imgDir r msg) perm0755 (some e)]) ∨
    (∃ e, a.1 = none ∧ b.1 = some e ∧ res.fs = b.2 ∧
        res.calls = w.calls ++ [Call.mkdirAll (imgDir r msg) perm0755 none,
          Call.writeFile (imgName r msg) frame perm0755 (some e)]) ∨
    (∃ e, a.1 = none ∧ b.1 = none ∧ c.1 = some e ∧ res.fs = c.2 ∧
        res.calls = w.calls ++ [Call.mkdirAll (imgDir r msg) perm0755 none,
          Call.writeFile (imgName r msg) frame perm0755 none,
          Call.mkdirAll (jsonDir r msg) perm0755 (some e)]) ∨
    (∃ e, a.1 = none ∧ b.1 = none ∧ c.1 = none ∧ jsonMarshal (record msg) = .error e ∧
        res.fs = c.2 ∧
        res.calls = w.calls ++ [Call.mkdirAll (imgDir r msg) perm0755 none,
          Call.writeFile (imgName r msg) frame perm0755 none,
          Call.mkdirAll (jsonDir r msg) perm0755 none,
          Call.marshal (record msg) (some e)]) ∨
    (∃ obj, a.1 = none ∧ b.1 = none ∧ c.1 = none ∧ jsonMarshal (record msg) = .ok obj ∧
        res.fs = (env.WriteFile (recordName r msg) (.jsonText obj) perm0755 c.2).2 ∧
        res.calls = w.calls ++ [Call.mkdirAll (imgDir r msg) perm0755 none,
          Call.writeFile (imgName r msg) frame perm0755 none,
          Call.mkdirAll (jsonDir r msg) perm0755 none,
          Call.marshal (record msg) none,
          Call.writeFile (recordName r msg) (.jsonText obj) perm0755
            (env.WriteFile (recordName r msg) (.jsonText obj) perm0755 c.2).1]) := by
  intro frame a b c res
  simp only [res, onRecordMsg, h, World.MkdirAll, World.WriteFile, World.Marshal, World.print,
    World.Errorf]
  rcases ha : a.1 with _ | e1
  · rcases hb : b.1 with _ | e2
    · rcases hc : c.1 with _ | e3
      · rcases hm : jsonMarshal (record msg) with e4 | obj
        · right; right; right; left
          refine ⟨e4, rfl, rfl, rfl, rfl, ?_⟩
          simp only [a, b, c, frame] at ha hb hc
          simp [ha, hb, hc, hm, errOf, a, b, c, frame]
        · right; right; right; right
          refine ⟨obj, rfl, rfl, rfl, rfl, ?_⟩
          simp only [a, b, c, frame] at ha hb hc
          rcases hd : (env.WriteFile (recordName r msg) (.jsonText obj) perm0755 c.2).1 with _ | e5
          all_goals simp only [a, b, c, frame] at hd
          all_goals simp [ha, hb, hc, hm, hd, errOf, a, b, c, frame]
      · right; right; left
        refine ⟨e3, rfl, rfl, rfl, ?_⟩
        simp only [a, b, c, frame] at ha hb hc
        simp [ha, hb, hc, a, b, c, frame]
    · right; left
      refine ⟨e2, rfl, rfl, ?_⟩
      simp only [a, b, c, frame] at ha hb
      simp [ha, hb, a, b, frame]
  · left
    refine ⟨e1, rfl, ?_⟩
    simp only [a, frame] at ha
    simp [ha, a]

/-- The five histories a run on a decoded message can produce from a fresh
world. -/
theorem callsOf_cases {σ : Type} (env : Env σ) (r : Recorder) (payload : Bytes) (fs : σ)
    (msg : RecordMessage) (h : env.Unmarshal payload = .ok msg) :
    let frame := FileData.raw (FrameMessage.GetFrame msg.GetFrame)
    (∃ e, callsOf env r payload fs = [Call.mkdirAll (imgDir r msg) perm0755 (some e)]) ∨
    (∃ e, callsOf env r payload fs = [Call.mkdirAll (imgDir r msg) perm0755 none,
          Call.writeFile (imgName r msg) frame perm0755 (some e)]) ∨
    (∃ e, callsOf env r payload fs = [Call.mkdirAll (imgDir r msg) perm0755 none,
          Call.writeFile (imgName r msg) frame perm0755 none,
          Call.mkdirAll (jsonDir r msg) perm0755 (some e)]) ∨
    (∃ e, jsonMarshal (record msg) = .error e ∧
        callsOf env r payload fs = [Call.mkdirAll (imgDir r msg) perm0755 none,
          Call.writeFile (imgName r msg) frame perm0755 none,
          Call.mkdirAll (jsonDir r msg) perm0755 none,
          Call.marshal (record msg) (some e)]) ∨
    (∃ obj err, jsonMarshal (record msg) = .ok obj ∧
        callsOf env r payload fs = [Call.mkdirAll (imgDir r msg) perm0755 none,
          Call.writeFile (imgName r msg) frame perm0755 none,
          Call.mkdirAll (jsonDir r msg) perm0755 none,
          Call.marshal (record msg) none,
          Call.writeFile (recordName r msg) (.jsonText obj) perm0755 err]) := by
  intro frame
  have hc := onRecordMsg_cases env r payload (World.fresh fs) msg h
  simp only [World.fresh, List.nil_append] at hc
  rcases hc with ⟨e, _, _, hc⟩ | ⟨e, _, _, _, hc⟩ | ⟨e, _, _, _, _, hc⟩ |
      ⟨e, _, _, _, hm, _, hc⟩ | ⟨obj, _, _, _, hm, _, hc⟩
  · exact Or.inl ⟨e, hc⟩
  · exact Or.inr (Or.inl ⟨e, hc⟩)
  · exact Or.inr (Or.inr (Or.inl ⟨e, hc⟩))
  · exact Or.inr (Or.inr (Or.inr (Or.inl ⟨e, hm, hc⟩)))
  · exact Or.inr (Or.inr (Or.inr (Or.inr ⟨obj, _, hm, hc⟩)))

/-! ## Path components -/

theorem componentsAux_no_slash (t cur : List Char) (ht : '/' ∉ t) :
    componentsAux t cur = if cur ++ t = [] then [] else [cur ++ t] := by
  induction t generalizing cur with
  | nil => simp [componentsAux]
  | cons c t ih =>
    have hc : c ≠ '/' := fun h => ht (by simp [h])
    have ht2 : '/' ∉ t := fun h => ht (by simp [h])
    simp [componentsAux, hc, ih _ ht2]

/-- The last component of a path that ends in a separator-free, non-empty text
ends in that text. -/
theorem componentsAux_append_last (a t cur : List Char) (ht : '/' ∉ t) (hne : t ≠ []) :
    ∃ pre w, componentsAux (a ++ t) cur = pre ++ [w ++ t] := by
  induction a generalizing cur with
  | nil =>
    refine ⟨[], cur, ?_⟩
    simp [componentsAux_no_slash t cur ht, hne]
  | cons c a ih =>
    by_cases hc : c = '/'
    · by_cases hcur : cur = []
      · obtain ⟨pre, w, h⟩ := ih []
        exact ⟨pre, w, by simp [componentsAux, hc, hcur, h]⟩
      · obtain ⟨pre, w, h⟩ := ih []
        exact ⟨cur :: pre, w, by simp [componentsAux, hc, hcur, h]⟩
    · obtain ⟨pre, w, h⟩ := ih (cur ++ [c])
      exact ⟨pre, w, by simp [componentsAux, hc, h]⟩

/-- A doubled separator does not change the components. -/
theorem componentsAux_double_slash (a b cur : List Char) :
    componentsAux (a ++ '/' :: '/' :: b) cur = componentsAux (a ++ '/' :: b) cur := by
  induction a generalizing cur with
  | nil => by_cases hcur : cur = [] <;> simp [componentsAux, hcur]
  | cons c a ih => by_cases hc : c = '/' <;> by_cases hcur : cur = [] <;>
      simp [componentsAux, hc, hcur, ih]

theorem components_last (a t : String) (ht : '/' ∉ t.data) (hne : t.data ≠ []) :
    ∃ pre w, components (a ++ t) = pre ++ [w ++ t] := by
  obtain ⟨pre, w, h⟩ := componentsAux_append_last a.data t.data [] ht hne
  refine ⟨pre.map String.mk, ⟨w⟩, ?_⟩
  simp only [components, String.data_append, h, List.map_append, List.map_cons, List.map_nil]
  congr 2

/-- The image file and the sidecar of one message are different files: their
last components end in `.jpg` and in `.json`. -/
theorem components_imgName_ne_recordName (r : Recorder) (m1 m2 : RecordMessage) :
    components (imgName r m1) ≠ components (recordName r m2) := by
  intro h
  obtain ⟨p1, w1, h1⟩ := components_last
    (r.recordsDir ++ "/" ++ m1.recordSet ++ "/cam/cam-image_array_" ++ m1.frameId) ".jpg"
    (by decide) (by decide)
  obtain ⟨p2, w2, h2⟩ := components_last
    (r.recordsDir ++ "/" ++ m2.recordSet ++ "//record_" ++ m2.frameId) ".json"
    (by decide) (by decide)
  rw [imgName_eq, recordName_eq, h1, h2] at h
  have hl := congrArg List.getLast? h
  simp only [List.getLast?_append, List.getLast?_singleton, Option.or, Option.some.injEq] at hl
  have hd := congrArg (fun s : String => s.data.getLast?) hl
  simp [String.data_append] at hd

/-! ## The reference file system -/

theorem MemFS.set_same (s : MemFS) (k : List String) (n : Node) : s.set k n k = some n := by
  simp [MemFS.set]

theorem MemFS.set_other (s : MemFS) (k k2 : List String) (n : Node) (h : k2 ≠ k) :
    s.set k n k2 = s k2 := by
  simp [MemFS.set, h]

theorem MemFS.set_eq_self (s : MemFS) (k : List String) (n : Node) (h : s k = some n) :
    s.set k n = s := by
  funext k2
  by_cases hk : k2 = k
  · subst hk; simp [MemFS.set, h]
  · simp [MemFS.set, hk]

/-- Creating directories never changes a node that exists. -/
theorem MemFS.mkdirFrom_keeps (cs pre : List String) (s : MemFS) (k : List String) (n : Node)
    (h : s k = some n) : (MemFS.mkdirFrom pre cs s).2 k = some n := by
  induction cs generalizing pre s with
  | nil => simpa [MemFS.mkdirFrom] using h
  | cons c cs ih =>
    unfold MemFS.mkdirFrom
    split
    · exact h
    · exact ih _ _ h
    · rename_i hnone
      apply ih
      have hk : k ≠ pre ++ [c] := fun hk => by rw [hk, hnone] at h; cases h
      rw [MemFS.set_other _ _ _ _ hk]; exact h

/-- Once a directory creation has succeeded, it succeeds without effect on
every state that still has the directories it left. -/
theorem MemFS.mkdirFrom_stable (cs pre : List String) (s t : MemFS)
    (hok : (MemFS.mkdirFrom pre cs s).1 = none)
    (hkept : ∀ k, (MemFS.mkdirFrom pre cs s).2 k = some Node.dir → t k = some Node.dir) :
    MemFS.mkdirFrom pre cs t = (none, t) := by
  induction cs generalizing pre s with
  | nil => simp [MemFS.mkdirFrom]
  | cons c cs ih =>
    unfold MemFS.mkdirFrom at hok hkept
    have ht : t (pre ++ [c]) = some Node.dir := by
      apply hkept
      split
      · rename_i hfile; simp [hfile] at hok
      · rename_i hdir; exact MemFS.mkdirFrom_keeps _ _ _ _ _ hdir
      · exact MemFS.mkdirFrom_keeps _ _ _ _ _ (MemFS.set_same _ _ _)
    rw [MemFS.mkdirFrom, ht]
    split at hok
    · simp at hok
    · rename_i hdir
      simp only [hdir] at hkept
      exact ih _ _ hok hkept
    · rename_i hnone
      simp only [hnone] at hkept
      exact ih _ _ hok hkept

/-- Running a directory creation again on the state it left gives the same
outcome and the same state. -/
theorem MemFS.mkdirFrom_idem (cs pre : List String) (s : MemFS) :
    MemFS.mkdirFrom pre cs (MemFS.mkdirFrom pre cs s).2 = MemFS.mkdirFrom pre cs s := by
  induction cs generalizing pre s with
  | nil => simp [MemFS.mkdirFrom]
  | cons c cs ih =>
    rcases hnode : s (pre ++ [c]) with _ | n
    · have h1 : MemFS.mkdirFrom pre (c :: cs) s
          = MemFS.mkdirFrom (pre ++ [c]) cs (s.set (pre ++ [c]) Node.dir) := by
        rw [MemFS.mkdirFrom, hnode]
      have h2 : (MemFS.mkdirFrom (pre ++ [c]) cs (s.set (pre ++ [c]) Node.dir)).2 (pre ++ [c])
          = some Node.dir := MemFS.mkdirFrom_keeps _ _ _ _ _ (MemFS.set_same _ _ _)
      rw [h1, MemFS.mkdirFrom, h2]
      exact ih _ _
    · cases n with
      | dir =>
        have h1 : MemFS.mkdirFrom pre (c :: cs) s = MemFS.mkdirFrom (pre ++ [c]) cs s := by
          rw [MemFS.mkdirFrom, hnode]
        have h2 : (MemFS.mkdirFrom (pre ++ [c]) cs s).2 (pre ++ [c]) = some Node.dir :=
          MemFS.mkdirFrom_keeps _ _ _ _ _ hnode
        rw [h1, MemFS.mkdirFrom, h2]
        exact ih _ _
      | file d =>
        have h1 : MemFS.mkdirFrom pre (c :: cs) s = (some "not a directory", s) := by
          rw [MemFS.mkdirFrom, hnode]
        rw [h1]
        exact h1

theorem MemFS.MkdirAll_keeps (path : String) (perm : Nat) (s : MemFS) (k : List String) (n : Node)
    (h : s k = some n) : (MemFS.MkdirAll path perm s).2 k = some n := by
  unfold MemFS.MkdirAll
  split
  · exact h
  · exact MemFS.mkdirFrom_keeps _ _ _ _ _ h

theorem MemFS.MkdirAll_stable (path : String) (perm : Nat) (s t : MemFS)
    (hok : (MemFS.MkdirAll path perm s).1 = none)
    (hkept : ∀ k, (MemFS.MkdirAll path perm s).2 k = some Node.dir → t k = some Node.dir) :
    MemFS.MkdirAll path perm t = (none, t) := by
  unfold MemFS.MkdirAll at hok hkept ⊢
  split
  · rename_i hp; simp [hp] at hok
  · rename_i hp
    simp only [hp, if_false] at hok hkept
    exact MemFS.mkdirFrom_stable _ _ _ _ hok hkept

theorem MemFS.MkdirAll_idem (path : String) (perm : Nat) (s : MemFS) :
    MemFS.MkdirAll path perm (MemFS.MkdirAll path perm s).2 = MemFS.MkdirAll path perm s := by
  unfold MemFS.MkdirAll
  split
  · rfl
  · exact MemFS.mkdirFrom_idem _ _ _

/-- A write that fails leaves the state as it was. -/
theorem MemFS.WriteFile_failed (name : String) (data : FileData) (perm : Nat) (s : MemFS)
    (e : String) (h : (MemFS.WriteFile name data perm s).1 = some e) :
    (MemFS.WriteFile name data perm s).2 = s := by
  unfold MemFS.WriteFile at h ⊢
  split_ifs at h ⊢ <;> rfl

/-- A write that succeeds puts the data at the components of its name. -/
theorem MemFS.WriteFile_ok (name : String) (data : FileData) (perm : Nat) (s : MemFS)
    (h : (MemFS.WriteFile name data perm s).1 = none) :
    (MemFS.WriteFile name data perm s).2 = s.set (components name) (Node.file data) := by
  unfold MemFS.WriteFile at h ⊢
  split_ifs at h ⊢
  rfl

/-- A write never changes a directory. -/
theorem MemFS.WriteFile_keeps_dir (name : String) (data : FileData) (perm : Nat) (s : MemFS)
    (k : List String) (h : s k = some Node.dir) :
    (MemFS.WriteFile name data perm s).2 k = some Node.dir := by
  unfold MemFS.WriteFile
  split_ifs with h1 h2 h3 h4
  · exact h
  · exact h
  · exact h
  · exact h
  · have hk : k ≠ components name := fun hk => h4 (hk ▸ h)
    show s.set (components name) (Node.file data) k = some Node.dir
    rw [MemFS.set_other _ _ _ _ hk]; exact h

/-- Once a write has succeeded, it succeeds without effect on every state that
still has the directories and holds the data at its name. -/
theorem MemFS.WriteFile_stable (name : String) (data : FileData) (perm : Nat) (s t : MemFS)
    (hok : (MemFS.WriteFile name data perm s).1 = none)
    (hkept : ∀ k, s k = some Node.dir → t k = some Node.dir)
    (hdata : t (components name) = some (Node.file data)) :
    MemFS.WriteFile name data perm t = (none, t) := by
  unfold MemFS.WriteFile at hok ⊢
  split_ifs at hok with h1 h2 h3 h4
  have h3t : (!((components name).dropLast.inits.all t.isDir)) = false := by
    simp only [Bool.not_eq_true, Bool.not_eq_false_eq_eq_true, Bool.not_eq_true_eq_eq_false,
      List.all_eq_true, Bool.not_eq_false] at h3 ⊢
    intro k hk
    have := h3 k hk
    simp only [MemFS.isDir, Bool.or_eq_true, decide_eq_true_eq] at this ⊢
    rcases this with h | h
    · exact Or.inl h
    · exact Or.inr (hkept _ h)
  rw [if_neg h1, if_neg h2, h3t]
  simp only [Bool.false_eq_true, if_false, hdata]
  simp [MemFS.set_eq_self _ _ _ hdata]

/-- Where the only element with a property is the last one, a split of the
list at an element with the property has everything else on its left. -/
theorem split_at_last {α : Type} (P : α → Prop) (l : List α) (x : α) (pre post : List α) (c : α)
    (hl : ∀ a ∈ l, ¬ P a) (h : l ++ [x] = pre ++ c :: post) (hc : P c) : pre = l := by
  induction l generalizing pre with
  | nil =>
    cases pre with
    | nil => rfl
    | cons b pre => simp at h
  | cons a l ih =>
    cases pre with
    | nil =>
      simp only [List.cons_append, List.nil_append, List.cons.injEq] at h
      exact absurd (h.1 ▸ hc) (hl a (List.mem_cons_self _ _))
    | cons b pre =>
      simp only [List.cons_append, List.cons.injEq] at h
      rw [h.1, ih pre (fun a ha => hl a (List.mem_cons_of_mem _ ha)) h.2]

theorem imgDir_ne_jsonDir (r : Recorder) (msg : RecordMessage) : imgDir r msg ≠ jsonDir r msg := by
  rw [imgDir_eq, jsonDir_eq]
  intro h
  have hd := congrArg String.data h
  simp [String.data_append] at hd

/-- The sidecar name computed by the handler and the name with a single
separator have the same components. -/
theorem components_recordName (r : Recorder) (msg : RecordMessage) :
    components (recordName r msg)
      = components (r.recordsDir ++ "/" ++ msg.recordSet ++ "/record_" ++ msg.frameId ++ ".json") := by
  rw [recordName_eq]
  have h := componentsAux_double_slash (r.recordsDir ++ "/" ++ msg.recordSet).data
    ("record_" ++ msg.frameId ++ ".json").data []
  simp only [components]
  have e1 : (r.recordsDir ++ "/" ++ msg.recordSet ++ "//record_" ++ msg.frameId ++ ".json").data
      = (r.recordsDir ++ "/" ++ msg.recordSet).data
        ++ '/' :: '/' :: ("record_" ++ msg.frameId ++ ".json").data := by
    simp [String.data_append]
  have e2 : (r.recordsDir ++ "/" ++ msg.recordSet ++ "/record_" ++ msg.frameId ++ ".json").data
      = (r.recordsDir ++ "/" ++ msg.recordSet).data
        ++ '/' :: ("record_" ++ msg.frameId ++ ".json").data := by
    simp [String.data_append]
  rw [e1, e2, h]

/-- A doubled separator does not change the squeezed path. -/
theorem squeezeAux_double_slash (a b : List Char) (prev : Bool) :
    squeezeAux (a ++ '/' :: '/' :: b) prev = squeezeAux (a ++ '/' :: b) prev := by
  induction a generalizing prev with
  | nil => cases prev <;> simp [squeezeAux]
  | cons c a ih => by_cases hc : c = '/' <;> cases prev <;> simp [squeezeAux, hc, ih]

/-- The sidecar name computed by the handler and the name with a single
separator differ only in a repeated separator. -/
theorem squeeze_recordName (r : Recorder) (msg : RecordMessage) :
    squeeze (recordName r msg)
      = squeeze (r.recordsDir ++ "/" ++ msg.recordSet ++ "/record_" ++ msg.frameId ++ ".json") := by
  rw [recordName_eq]
  have h := squeezeAux_double_slash (r.recordsDir ++ "/" ++ msg.recordSet).data
    ("record_" ++ msg.frameId ++ ".json").data false
  have e1 : (r.recordsDir ++ "/" ++ msg.recordSet ++ "//record_" ++ msg.frameId ++ ".json").data
      = (r.recordsDir ++ "/" ++ msg.recordSet).data
        ++ '/' :: '/' :: ("record_" ++ msg.frameId ++ ".json").data := by
    simp [String.data_append]
  have e2 : (r.recordsDir ++ "/" ++ msg.recordSet ++ "/record_" ++ msg.frameId ++ ".json").data
      = (r.recordsDir ++ "/" ++ msg.recordSet).data
        ++ '/' :: ("record_" ++ msg.frameId ++ ".json").data := by
    simp [String.data_append]
  simp only [squeeze]
  rw [e1, e2, h]

/-! ## Path names as strings -/

/-- Two texts that agree up to and including the first separator agree before
it and after it. -/
theorem cut_at_slash (a b x y : List Char) (ha : '/' ∉ a) (hb : '/' ∉ b)
    (h : a ++ '/' :: x = b ++ '/' :: y) : a = b ∧ x = y := by
  induction a generalizing b with
  | nil =>
    cases b with
    | nil => simpa using h
    | cons d b =>
      simp only [List.nil_append, List.cons_append, List.cons.injEq] at h
      exact absurd (by simp [← h.1]) hb
  | cons c a ih =>
    cases b with
    | nil =>
      simp only [List.nil_append, List.cons_append, List.cons.injEq] at h
      exact absurd (by simp [h.1]) ha
    | cons d b =>
      simp only [List.cons_append, List.cons.injEq] at h
      have := ih b (fun hm => ha (List.mem_cons_of_mem _ hm))
        (fun hm => hb (List.mem_cons_of_mem _ hm)) h.2
      exact ⟨by rw [h.1, this.1], this.2⟩

/-- Image names agree only for the same record set and frame, when the
record-set names have no separator. -/
theorem imgName_inj (r : Recorder) (m1 m2 : RecordMessage) (h1 : '/' ∉ m1.recordSet.data)
    (h2 : '/' ∉ m2.recordSet.data) (h : imgName r m1 = imgName r m2) :
    m1.recordSet = m2.recordSet ∧ m1.frameId = m2.frameId := by
  rw [imgName_eq, imgName_eq] at h
  have hd := congrArg String.data h
  simp only [String.data_append, List.append_assoc] at hd
  have hd2 := List.append_cancel_left hd
  have hd3 : m1.recordSet.data ++ '/' :: ("cam/cam-image_array_".data ++ (m1.frameId.data ++ ".jpg".data))
      = m2.recordSet.data ++ '/' :: ("cam/cam-image_array_".data ++ (m2.frameId.data ++ ".jpg".data)) := by
    simpa using hd2
  obtain ⟨hs, hrest⟩ := cut_at_slash _ _ _ _ h1 h2 hd3
  have hi := List.append_cancel_right (List.append_cancel_left hrest)
  exact ⟨String.ext hs, String.ext hi⟩

/-- Sidecar names agree only for the same record set and frame, when the
record-set names have no separator. -/
theorem recordName_inj (r : Recorder) (m1 m2 : RecordMessage) (h1 : '/' ∉ m1.recordSet.data)
    (h2 : '/' ∉ m2.recordSet.data) (h : recordName r m1 = recordName r m2) :
    m1.recordSet = m2.recordSet ∧ m1.frameId = m2.frameId := by
  rw [recordName_eq, recordName_eq] at h
  have hd := congrArg String.data h
  simp only [String.data_append, List.append_assoc] at hd
  have hd2 := List.append_cancel_left hd
  have hd3 : m1.recordSet.data ++ '/' :: ("/record_".data ++ (m1.frameId.data ++ ".json".data))
      = m2.recordSet.data ++ '/' :: ("/record_".data ++ (m2.frameId.data ++ ".json".data)) := by
    simpa using hd2
  obtain ⟨hs, hrest⟩ := cut_at_slash _ _ _ _ h1 h2 hd3
  have hi := List.append_cancel_right (List.append_cancel_left hrest)
  exact ⟨String.ext hs, String.ext hi⟩

/-- An image name is never a sidecar name: one ends in `g`, the other in `n`. -/
theorem imgName_ne_recordName (r : Recorder) (m1 m2 : RecordMessage) :
    imgName r m1 ≠ recordName r m2 := by
  rw [imgName_eq, recordName_eq]
  intro h
  have hL : ∀ a : String, (a ++ ".jpg").data.getLast? = some 'g' := fun a => by
    rw [String.data_append, List.getLast?_append]; rfl
  have hR : ∀ a : String, (a ++ ".json").data.getLast? = some 'n' := fun a => by
    rw [String.data_append, List.getLast?_append]; rfl
  have hd := congrArg (fun s : String => s.data.getLast?) h
  simp only [hL, hR] at hd
  exact absurd hd (by decide)

/-! ## Claims on the history of calls -/

/-- Claim C7. A payload that fails to decode makes the handler return without
any library call: the file-system state and the history of calls are the ones
before the call, and the recorder is returned unchanged. -/
theorem C7_decode_failure_no_fs_effect {σ : Type} (env : Env σ) (r : Recorder)
    (payload : Bytes) (w : World σ) (e : String) (h : env.Unmarshal payload = .error e) :
    (onRecordMsg env r payload w).1 = r ∧
      (onRecordMsg env r payload w).2.fs = w.fs ∧
      (onRecordMsg env r payload w).2.calls = w.calls := by
  simp [onRecordMsg, h, World.Errorf]

/-- Witness of C7: the empty payload is rejected by the test decoder and the
run on the test file system leaves it as it was, with no call made. -/
theorem C7_witness :
    testUnmarshal [] = .error "proto: cannot parse invalid wire-format data" ∧
      ((onRecordMsg (memEnv testUnmarshal) testRecorder [] (World.fresh testFS)).1 = testRecorder ∧
        (onRecordMsg (memEnv testUnmarshal) testRecorder [] (World.fresh testFS)).2.fs = testFS ∧
        (onRecordMsg (memEnv testUnmarshal) testRecorder [] (World.fresh testFS)).2.calls = []) :=
  ⟨rfl, C7_decode_failure_no_fs_effect (memEnv testUnmarshal) testRecorder []
    (World.fresh testFS) "proto: cannot parse invalid wire-format data" rfl⟩

/-- Claim C8. Image before sidecar: in a run on a decoded message every write
of JSON text is preceded, in the same run, by the successful write of the
frame bytes to the image file; if a write of raw bytes failed, the run issues
no write of JSON text; and a run in which a write of JSON text succeeded has
the successful image write in its history. -/
theorem C8_image_before_sidecar {σ : Type} (env : Env σ) (r : Recorder) (payload : Bytes)
    (fs : σ) (msg : RecordMessage) (h : env.Unmarshal payload = .ok msg) :
    (∀ pre c post, callsOf env r payload fs = pre ++ c :: post → c.isJsonWrite = true →
        Call.writeFile (imgName r msg) (.raw (FrameMessage.GetFrame msg.GetFrame)) perm0755 none
          ∈ pre) ∧
    (∀ name b p e, Call.writeFile name (.raw b) p (some e) ∈ callsOf env r payload fs →
        ∀ c ∈ callsOf env r payload fs, c.isJsonWrite = false) ∧
    (∀ name obj p, Call.writeFile name (.jsonText obj) p none ∈ callsOf env r payload fs →
        Call.writeFile (imgName r msg) (.raw (FrameMessage.GetFrame msg.GetFrame)) perm0755 none
          ∈ callsOf env r payload fs) := by
  have hno : ∀ (L : List Call) (pre post : List Call) (c : Call),
      (∀ a ∈ L, a.isJsonWrite = false) → L = pre ++ c :: post → c.isJsonWrite = true → False := by
    intro L pre post c hL hsplit hc
    have hm : c ∈ L := by rw [hsplit]; simp
    rw [hL c hm] at hc
    cases hc
  rcases callsOf_cases env r payload fs msg h with ⟨e, hc⟩ | ⟨e, hc⟩ | ⟨e, hc⟩ | ⟨e, _, hc⟩ |
      ⟨obj, err, _, hc⟩
  · rw [hc]
    have hall : ∀ a ∈ [Call.mkdirAll (imgDir r msg) perm0755 (some e)],
        a.isJsonWrite = false := by simp [Call.isJsonWrite]
    exact ⟨fun pre c post hs hj => (hno _ pre post c hall hs hj).elim, fun _ _ _ _ _ => hall,
      fun name obj p hmem => by simp at hmem⟩
  · rw [hc]
    have hall : ∀ a ∈ [Call.mkdirAll (imgDir r msg) perm0755 none,
          Call.writeFile (imgName r msg) (.raw (FrameMessage.GetFrame msg.GetFrame)) perm0755
            (some e)], a.isJsonWrite = false := by simp [Call.isJsonWrite]
    exact ⟨fun pre c post hs hj => (hno _ pre post c hall hs hj).elim, fun _ _ _ _ _ => hall,
      fun name obj p hmem => by simp at hmem⟩
  · rw [hc]
    have hall : ∀ a ∈ [Call.mkdirAll (imgDir r msg) perm0755 none,
          Call.writeFile (imgName r msg) (.raw (FrameMessage.GetFrame msg.GetFrame)) perm0755 none,
          Call.mkdirAll (jsonDir r msg) perm0755 (some e)],
        a.isJsonWrite = false := by simp [Call.isJsonWrite]
    exact ⟨fun pre c post hs hj => (hno _ pre post c hall hs hj).elim, fun _ _ _ _ _ => hall,
      fun name obj p hmem => by simp at hmem⟩
  · rw [hc]
    have hall : ∀ a ∈ [Call.mkdirAll (imgDir r msg) perm0755 none,
          Call.writeFile (imgName r msg) (.raw (FrameMessage.GetFrame msg.GetFrame)) perm0755 none,
          Call.mkdirAll (jsonDir r msg) perm0755 none, Call.marshal (record msg) (some e)],
        a.isJsonWrite = false := by simp [Call.isJsonWrite]
    exact ⟨fun pre c post hs hj => (hno _ pre post c hall hs hj).elim, fun _ _ _ _ _ => hall,
      fun name obj p hmem => by simp at hmem⟩
  · rw [hc]
    refine ⟨fun pre c post hs hj => ?_, fun name b p e hmem => ?_, fun name obj p _ => by simp⟩
    · have hpre := split_at_last (fun a : Call => a.isJsonWrite = true)
        [Call.mkdirAll (imgDir r msg) perm0755 none,
          Call.writeFile (imgName r msg) (.raw (FrameMessage.GetFrame msg.GetFrame)) perm0755 none,
          Call.mkdirAll (jsonDir r msg) perm0755 none, Call.marshal (record msg) none]
        (Call.writeFile (recordName r msg) (.jsonText obj) perm0755 err) pre post c
        (by simp [Call.isJsonWrite]) (by simpa using hs) hj
      rw [hpre]; simp
    · simp at hmem

/-- Witness of C8: the test message decodes, its run ends in the one write of
JSON text, and the theorem places the successful image write before it. -/
theorem C8_witness :
    testUnmarshal [0] = .ok testMessage ∧
      (callsOf (memEnv testUnmarshal) testRecorder [0] testFS).map Call.isJsonWrite
        = [false, false, false, false, true] ∧
      ((∀ pre c post, callsOf (memEnv testUnmarshal) testRecorder [0] testFS = pre ++ c :: post →
          c.isJsonWrite = true →
          Call.writeFile (imgName testRecorder testMessage)
            (.raw (FrameMessage.GetFrame testMessage.GetFrame)) perm0755 none ∈ pre) ∧
       (∀ name b p e, Call.writeFile name (.raw b) p (some e)
            ∈ callsOf (memEnv testUnmarshal) testRecorder [0] testFS →
          ∀ c ∈ callsOf (memEnv testUnmarshal) testRecorder [0] testFS, c.isJsonWrite = false) ∧
       (∀ name obj p, Call.writeFile name (.jsonText obj) p none
            ∈ callsOf (memEnv testUnmarshal) testRecorder [0] testFS →
          Call.writeFile (imgName testRecorder testMessage)
            (.raw (FrameMessage.GetFrame testMessage.GetFrame)) perm0755 none
              ∈ callsOf (memEnv testUnmarshal) testRecorder [0] testFS)) :=
  ⟨rfl, by decide,
    C8_image_before_sidecar (memEnv testUnmarshal) testRecorder [0] testFS testMessage rfl⟩

/-- Claim C1. For a decoded message, every record the handler hands to
`json.Marshal` has `UserAngle` the user steering value, `AutopilotAngle` the
autopilot steering value, `CamImageArray` the relative name
`cam/cam-image_array_<frameId>.jpg` and `DriveMode` the symbolic name of the
drive mode; and a run in which no file-system call fails does serialise one. -/
theorem C1_record_fields {σ : Type} (env : Env σ) (r : Recorder) (payload : Bytes) (fs : σ)
    (msg : RecordMessage) (h : env.Unmarshal payload = .ok msg) :
    (∀ v e, Call.marshal v e ∈ callsOf env r payload fs →
        v.UserAngle = SteeringMessage.GetSteering msg.steering ∧
        v.AutopilotAngle = SteeringMessage.GetSteering msg.autopilotSteering ∧
        v.CamImageArray = "cam/cam-image_array_" ++ msg.frameId ++ ".jpg" ∧
        v.DriveMode = (DriveModeMessage.GetDriveMode msg.driveMode).String) ∧
    ((∀ c ∈ callsOf env r payload fs, c.fsFailed = false) →
        ∃ v e, Call.marshal v e ∈ callsOf env r payload fs) := by
  have hrec : ∀ v, v = record msg →
      v.UserAngle = SteeringMessage.GetSteering msg.steering ∧
      v.AutopilotAngle = SteeringMessage.GetSteering msg.autopilotSteering ∧
      v.CamImageArray = "cam/cam-image_array_" ++ msg.frameId ++ ".jpg" ∧
      v.DriveMode = (DriveModeMessage.GetDriveMode msg.driveMode).String := by
    intro v hv
    subst hv
    exact ⟨rfl, rfl, imgRef_eq msg, rfl⟩
  rcases callsOf_cases env r payload fs msg h with ⟨e, hc⟩ | ⟨e, hc⟩ | ⟨e, hc⟩ | ⟨e, _, hc⟩ |
      ⟨obj, err, _, hc⟩
  all_goals rw [hc]
  · exact ⟨fun v e hm => by simp at hm, fun hf => by simp [Call.fsFailed] at hf⟩
  · exact ⟨fun v e hm => by simp at hm, fun hf => by simp [Call.fsFailed] at hf⟩
  · exact ⟨fun v e hm => by simp at hm, fun hf => by simp [Call.fsFailed] at hf⟩
  · refine ⟨fun v e hm => ?_, fun _ => ⟨record msg, some e, by simp⟩⟩
    simp at hm
    exact hrec v hm.1
  · refine ⟨fun v e hm => ?_, fun _ => ⟨record msg, none, by simp⟩⟩
    simp at hm
    exact hrec v hm.1

/-- Witness of C1, the case of the test: for frame id "1", record set
"default", user steering -0.5, autopilot steering 0.6 and drive mode PILOT the
record serialised is the expected one. -/
theorem C1_witness :
    testUnmarshal [0] = .ok testMessage ∧
      Call.marshal ⟨f32NegHalf, f32SixTenths, "cam/cam-image_array_1.jpg", "PILOT"⟩ none
        ∈ callsOf (memEnv testUnmarshal) testRecorder [0] testFS ∧
      (∀ v e, Call.marshal v e ∈ callsOf (memEnv testUnmarshal) testRecorder [0] testFS →
        v = ⟨f32NegHalf, f32SixTenths, "cam/cam-image_array_1.jpg", "PILOT"⟩) := by
  refine ⟨rfl, by decide, fun v e hm => ?_⟩
  obtain ⟨h1, h2, h3, h4⟩ :=
    (C1_record_fields (memEnv testUnmarshal) testRecorder [0] testFS testMessage rfl).1 v e hm
  cases v
  simp only at h1 h2 h3 h4
  subst h1 h2 h3 h4
  decide

/-- Counterexample to C4 as stated. In the run of the test every file-system
call succeeds, yet the sidecar is not written to the name
`tmp/default/record_1.json` (the name used has a doubled separator); and for a
message whose user steering is a NaN every file-system call succeeds and only
one file write is issued. -/
theorem C4_counterexample :
    (∀ c ∈ callsOf (memEnv testUnmarshal) testRecorder [0] testFS, c.fsFailed = false) ∧
      (fileWrites (callsOf (memEnv testUnmarshal) testRecorder [0] testFS)).map Prod.fst
        ≠ ["tmp/default/cam/cam-image_array_1.jpg", "tmp/default/record_1.json"] ∧
      testUnmarshal [1] = .ok nanMessage ∧
      (∀ c ∈ callsOf (memEnv testUnmarshal) testRecorder [1] testFS, c.fsFailed = false) ∧
      (fileWrites (callsOf (memEnv testUnmarshal) testRecorder [1] testFS)).length = 1 :=
  ⟨by decide, by decide, rfl, by decide, by decide⟩

/-- Claim C4, amended. For a decoded message whose two steering values are
finite, a run in which no file-system call fails issues exactly two file
writes: the frame bytes to
`recordsDir/recordSet/cam/cam-image_array_<frameId>.jpg`, then the serialised
record to a name that differs from
`recordsDir/recordSet/record_<frameId>.json` only in repeated separators: the
two strings are equal once every run of `/` is collapsed to one `/`, and so
they have the same path components. -/
theorem C4_two_writes {σ : Type} (env : Env σ) (r : Recorder) (payload : Bytes) (fs : σ)
    (msg : RecordMessage) (h : env.Unmarshal payload = .ok msg)
    (hfs : ∀ c ∈ callsOf env r payload fs, c.fsFailed = false)
    (hu : (SteeringMessage.GetSteering msg.steering).isFinite = true)
    (ha : (SteeringMessage.GetSteering msg.autopilotSteering).isFinite = true) :
    ∃ name obj,
      fileWrites (callsOf env r payload fs)
        = [(r.recordsDir ++ "/" ++ msg.recordSet ++ "/cam/cam-image_array_" ++ msg.frameId ++ ".jpg",
            FileData.raw (FrameMessage.GetFrame msg.frame)),
           (name, FileData.jsonText obj)] ∧
      squeeze name
        = squeeze (r.recordsDir ++ "/" ++ msg.recordSet ++ "/record_" ++ msg.frameId ++ ".json") ∧
      components name
        = components (r.recordsDir ++ "/" ++ msg.recordSet ++ "/record_" ++ msg.frameId ++ ".json") ∧
      jsonMarshal (record msg) = .ok obj := by
  rcases callsOf_cases env r payload fs msg h with ⟨e, hc⟩ | ⟨e, hc⟩ | ⟨e, hc⟩ | ⟨e, hm, hc⟩ |
      ⟨obj, err, hm, hc⟩
  · rw [hc] at hfs; simp [Call.fsFailed] at hfs
  · rw [hc] at hfs; simp [Call.fsFailed] at hfs
  · rw [hc] at hfs; simp [Call.fsFailed] at hfs
  · rw [jsonMarshal_eq] at hm
    have hu2 : (record msg).UserAngle.isFinite = true := hu
    have ha2 : (record msg).AutopilotAngle.isFinite = true := ha
    simp [hu2, ha2] at hm
  · refine ⟨recordName r msg, obj, ?_, squeeze_recordName r msg, components_recordName r msg, hm⟩
    rw [hc, ← imgName_eq]
    rfl

/-- Witness of C4: the run of the test. -/
theorem C4_witness :
    testUnmarshal [0] = .ok testMessage ∧
      (∀ c ∈ callsOf (memEnv testUnmarshal) testRecorder [0] testFS, c.fsFailed = false) ∧
      (SteeringMessage.GetSteering testMessage.steering).isFinite = true ∧
      (SteeringMessage.GetSteering testMessage.autopilotSteering).isFinite = true ∧
      ∃ name obj,
        fileWrites (callsOf (memEnv testUnmarshal) testRecorder [0] testFS)
          = [(testRecorder.recordsDir ++ "/" ++ testMessage.recordSet ++ "/cam/cam-image_array_"
                ++ testMessage.frameId ++ ".jpg",
              FileData.raw (FrameMessage.GetFrame testMessage.frame)),
             (name, FileData.jsonText obj)] ∧
        squeeze name
          = squeeze (testRecorder.recordsDir ++ "/" ++ testMessage.recordSet ++ "/record_"
              ++ testMessage.frameId ++ ".json") ∧
        components name
          = components (testRecorder.recordsDir ++ "/" ++ testMessage.recordSet ++ "/record_"
              ++ testMessage.frameId ++ ".json") ∧
        jsonMarshal (record testMessage) = .ok obj :=
  ⟨rfl, by decide, by decide, by decide,
    C4_two_writes (memEnv testUnmarshal) testRecorder [0] testFS testMessage rfl (by decide)
      (by decide) (by decide)⟩

/-- Counterexample to C6 as stated. On a device that fails after two calls the
creation of the record-set directory fails, and the image file of the event
has been written by then. -/
theorem C6_counterexample :
    testUnmarshal [0] = .ok testMessage ∧
      Call.mkdirAll "tmp/default/" 0o755 (some "input/output error")
        ∈ callsOf (failingEnv testUnmarshal) testRecorder [0] (testFS, 2) ∧
      fileWrites (callsOf (failingEnv testUnmarshal) testRecorder [0] (testFS, 2))
        = [("tmp/default/cam/cam-image_array_1.jpg", FileData.raw frameContent)] ∧
      MemFS.ReadFile "tmp/default/cam/cam-image_array_1.jpg"
          (fsAfter (failingEnv testUnmarshal) testRecorder [0] (testFS, 2)).1
        = some (FileData.raw frameContent) :=
  ⟨rfl, by decide, by decide, by decide⟩

/-- Claim C6, amended. For a decoded message, a failed directory creation is
either that of the image directory `recordsDir/recordSet/cam`, and then it is
the only call of the run and no file has been written; or that of the
record-set directory `recordsDir/recordSet/`, and then the run consists of the
successful creation of the image directory, the successful write of the frame
bytes to the image file and the failed creation: the image file has been
written and the JSON sidecar has not. -/
theorem C6_directory_failure {σ : Type} (env : Env σ) (r : Recorder) (payload : Bytes) (fs : σ)
    (msg : RecordMessage) (h : env.Unmarshal payload = .ok msg) (path : String) (perm : Nat)
    (e : String) (hfail : Call.mkdirAll path perm (some e) ∈ callsOf env r payload fs) :
    (path = r.recordsDir ++ "/" ++ msg.recordSet ++ "/cam" ∧
        callsOf env r payload fs
          = [Call.mkdirAll (r.recordsDir ++ "/" ++ msg.recordSet ++ "/cam") perm0755 (some e)] ∧
        fileWrites (callsOf env r payload fs) = []) ∨
    (path = r.recordsDir ++ "/" ++ msg.recordSet ++ "/" ∧
        callsOf env r payload fs
          = [Call.mkdirAll (r.recordsDir ++ "/" ++ msg.recordSet ++ "/cam") perm0755 none,
             Call.writeFile
               (r.recordsDir ++ "/" ++ msg.recordSet ++ "/cam/cam-image_array_" ++ msg.frameId
                 ++ ".jpg")
               (FileData.raw (FrameMessage.GetFrame msg.frame)) perm0755 none,
             Call.mkdirAll (r.recordsDir ++ "/" ++ msg.recordSet ++ "/") perm0755 (some e)] ∧
        fileWrites (callsOf env r payload fs)
          = [(r.recordsDir ++ "/" ++ msg.recordSet ++ "/cam/cam-image_array_" ++ msg.frameId
                ++ ".jpg", FileData.raw (FrameMessage.GetFrame msg.frame))]) := by
  rcases callsOf_cases env r payload fs msg h with ⟨e1, hc⟩ | ⟨e1, hc⟩ | ⟨e1, hc⟩ | ⟨e1, _, hc⟩ |
      ⟨obj, err, _, hc⟩
  all_goals rw [hc] at hfail ⊢
  all_goals simp at hfail
  · left
    obtain ⟨hp, _, he⟩ := hfail
    rw [← imgDir_eq, he]
    exact ⟨hp, rfl, rfl⟩
  · right
    obtain ⟨hp, _, he⟩ := hfail
    rw [← imgDir_eq, ← imgName_eq, ← jsonDir_eq, he]
    exact ⟨hp, rfl, rfl⟩

/-- Witness of C6: on a device that fails after two calls the creation of the
record-set directory fails after the successful image write. -/
theorem C6_witness :
    testUnmarshal [0] = .ok testMessage ∧
      Call.mkdirAll "tmp/default/" 0o755 (some "input/output error")
        ∈ callsOf (failingEnv testUnmarshal) testRecorder [0] (testFS, 2) ∧
      (("tmp/default/" = testRecorder.recordsDir ++ "/" ++ testMessage.recordSet ++ "/cam" ∧
          callsOf (failingEnv testUnmarshal) testRecorder [0] (testFS, 2)
            = [Call.mkdirAll (testRecorder.recordsDir ++ "/" ++ testMessage.recordSet ++ "/cam")
                perm0755 (some "input/output error")] ∧
          fileWrites (callsOf (failingEnv testUnmarshal) testRecorder [0] (testFS, 2)) = []) ∨
        ("tmp/default/" = testRecorder.recordsDir ++ "/" ++ testMessage.recordSet ++ "/" ∧
          callsOf (failingEnv testUnmarshal) testRecorder [0] (testFS, 2)
            = [Call.mkdirAll (testRecorder.recordsDir ++ "/" ++ testMessage.recordSet ++ "/cam")
                perm0755 none,
               Call.writeFile
                 (testRecorder.recordsDir ++ "/" ++ testMessage.recordSet
                   ++ "/cam/cam-image_array_" ++ testMessage.frameId ++ ".jpg")
                 (FileData.raw (FrameMessage.GetFrame testMessage.frame)) perm0755 none,
               Call.mkdirAll (testRecorder.recordsDir ++ "/" ++ testMessage.recordSet ++ "/")
                 perm0755 (some "input/output error")] ∧
          fileWrites (callsOf (failingEnv testUnmarshal) testRecorder [0] (testFS, 2))
            = [(testRecorder.recordsDir ++ "/" ++ testMessage.recordSet
                  ++ "/cam/cam-image_array_" ++ testMessage.frameId ++ ".jpg",
                FileData.raw (FrameMessage.GetFrame testMessage.frame))])) :=
  ⟨rfl, by decide,
    C6_directory_failure (failingEnv testUnmarshal) testRecorder [0] (testFS, 2) testMessage rfl
      "tmp/default/" 0o755 "input/output error" (by decide)⟩

/-! ## Claims on the serialisation -/

/-- Counterexample to C2 as stated. The members of the serialised test record
are not named with a trailing comma. -/
theorem C2_counterexample :
    ∃ obj, jsonMarshal ⟨f32NegHalf, f32SixTenths, "cam/cam-image_array_1.jpg", "PILOT"⟩ = .ok obj ∧
      obj.names = ["user/angle", "autopilot/angle", "cam/image_array", "drive/mode"] ∧
      obj.names ≠ ["user/angle,", "autopilot/angle,", "cam/image_array,", "drive/mode,"] :=
  ⟨_, rfl, by decide, by decide⟩

/-- Claim C2, amended. For every record that `json.Marshal` accepts, the JSON
object names its members exactly `user/angle`, `autopilot/angle`,
`cam/image_array` and, unless `DriveMode` is the empty string, `drive/mode`:
each name is the text of the struct tag before its first comma, so none ends
in a comma, and the `omitempty` member is left out when empty. -/
theorem C2_member_names (v : Record) (obj : JsonObject) (h : jsonMarshal v = .ok obj) :
    obj.names = ["user/angle", "autopilot/angle", "cam/image_array"]
        ++ (if v.DriveMode = "" then [] else ["drive/mode"]) ∧
      ∀ n ∈ obj.names, ∃ f ∈ v.structFields, n = (parseTag f.tag).1 := by
  rw [jsonMarshal_eq] at h
  have hn : obj.names = ["user/angle", "autopilot/angle", "cam/image_array"]
      ++ (if v.DriveMode = "" then [] else ["drive/mode"]) := by
    split_ifs at h with h1 h2 <;> simp at h <;> subst h <;> simp [JsonObject.names, h2]
  refine ⟨hn, ?_⟩
  rw [hn]
  intro n hmem
  simp only [Record.structFields, List.mem_cons, List.mem_singleton, exists_eq_or_imp,
    parseTag_userAngle, parseTag_autopilotAngle, parseTag_camImageArray, parseTag_driveMode,
    List.mem_nil_iff, false_and, exists_false, or_false, exists_eq_left]
  split_ifs at hmem <;> simp at hmem <;> tauto

/-- Witness of C2: the record of the test. -/
theorem C2_witness :
    ∃ obj, jsonMarshal ⟨f32NegHalf, f32SixTenths, "cam/cam-image_array_1.jpg", "PILOT"⟩ = .ok obj ∧
      obj.names = ["user/angle", "autopilot/angle", "cam/image_array"]
        ++ (if ("PILOT" : String) = "" then [] else ["drive/mode"]) :=
  ⟨_, rfl, (C2_member_names ⟨f32NegHalf, f32SixTenths, "cam/cam-image_array_1.jpg", "PILOT"⟩ _
    rfl).1⟩

/-! ## Claims on the path names -/

/-- Counterexample to C9 as stated. Two messages with different (record set,
frame id) pairs, one with a separator in its record-set name and one with a
separator in its frame identifier, get the same image name. -/
theorem C9_counterexample :
    (clashMessageA.recordSet, clashMessageA.frameId)
        ≠ (clashMessageB.recordSet, clashMessageB.frameId) ∧
      imgName testRecorder clashMessageA = imgName testRecorder clashMessageB := by
  decide

/-- Claim C9, amended. For every records directory and every two decoded
messages whose record-set names contain no `/` and whose (record set, frame id)
pairs differ, the image name and the sidecar name of the first are both
different from the image name and from the sidecar name of the second. -/
theorem C9_disjoint_paths (r : Recorder) (m1 m2 : RecordMessage)
    (h1 : '/' ∉ m1.recordSet.data) (h2 : '/' ∉ m2.recordSet.data)
    (hne : (m1.recordSet, m1.frameId) ≠ (m2.recordSet, m2.frameId)) :
    imgName r m1 ≠ imgName r m2 ∧ imgName r m1 ≠ recordName r m2 ∧
      recordName r m1 ≠ imgName r m2 ∧ recordName r m1 ≠ recordName r m2 := by
  refine ⟨fun h => hne ?_, imgName_ne_recordName r m1 m2,
    fun h => imgName_ne_recordName r m2 m1 h.symm, fun h => hne ?_⟩
  · obtain ⟨hs, hi⟩ := imgName_inj r m1 m2 h1 h2 h
    rw [hs, hi]
  · obtain ⟨hs, hi⟩ := recordName_inj r m1 m2 h1 h2 h
    rw [hs, hi]

/-- Witness of C9: the two messages of the test decoder, frames "1" and "2" of
the record set "default". -/
theorem C9_witness :
    '/' ∉ testMessage.recordSet.data ∧ '/' ∉ nanMessage.recordSet.data ∧
      (testMessage.recordSet, testMessage.frameId) ≠ (nanMessage.recordSet, nanMessage.frameId) ∧
      (imgName testRecorder testMessage ≠ imgName testRecorder nanMessage ∧
        imgName testRecorder testMessage ≠ recordName testRecorder nanMessage ∧
        recordName testRecorder testMessage ≠ imgName testRecorder nanMessage ∧
        recordName testRecorder testMessage ≠ recordName testRecorder nanMessage) :=
  ⟨by decide, by decide, by decide,
    C9_disjoint_paths testRecorder testMessage nanMessage (by decide) (by decide) (by decide)⟩

/-- Claim C10. Path derivation is injective on separator-free names: for two
decoded messages whose record-set names and frame identifiers contain no `/`,
equal image names, or equal sidecar names, force the same record set and the
same frame identifier; and for any two messages whatsoever the image name of
one is not the sidecar name of the other. -/
theorem C10_paths_injective (r : Recorder) (m1 m2 : RecordMessage)
    (hs1 : '/' ∉ m1.recordSet.data) (_hi1 : '/' ∉ m1.frameId.data)
    (hs2 : '/' ∉ m2.recordSet.data) (_hi2 : '/' ∉ m2.frameId.data) :
    ((imgName r m1 = imgName r m2 ∨ recordName r m1 = recordName r m2) →
        m1.recordSet = m2.recordSet ∧ m1.frameId = m2.frameId) ∧
      ∀ a b : RecordMessage, imgName r a ≠ recordName r b := by
  refine ⟨fun h => ?_, fun a b => imgName_ne_recordName r a b⟩
  rcases h with h | h
  · exact imgName_inj r m1 m2 hs1 hs2 h
  · exact recordName_inj r m1 m2 hs1 hs2 h

/-- Witness of C10: the test message against itself. -/
theorem C10_witness :
    '/' ∉ testMessage.recordSet.data ∧ '/' ∉ testMessage.frameId.data ∧
      (((imgName testRecorder testMessage = imgName testRecorder testMessage ∨
            recordName testRecorder testMessage = recordName testRecorder testMessage) →
          testMessage.recordSet = testMessage.recordSet ∧
            testMessage.frameId = testMessage.frameId) ∧
        ∀ a b : RecordMessage, imgName testRecorder a ≠ recordName testRecorder b) :=
  ⟨by decide, by decide,
    C10_paths_injective testRecorder testMessage testMessage (by decide) (by decide) (by decide)
      (by decide)⟩

/-! ## Claims on the reference file system -/

theorem fsAfter_failed {σ : Type} (env : Env σ) (r : Recorder) (payload : Bytes) (fs : σ)
    (e : String) (h : env.Unmarshal payload = .error e) : fsAfter env r payload fs = fs := by
  simp [fsAfter, onRecordMsg, h, World.Errorf, World.fresh]

/-- The file system a run on a decoded message leaves, call by call. -/
theorem fsAfter_decoded {σ : Type} (env : Env σ) (r : Recorder) (payload : Bytes) (fs : σ)
    (msg : RecordMessage) (h : env.Unmarshal payload = .ok msg) :
    fsAfter env r payload fs =
      if (env.MkdirAll (imgDir r msg) perm0755 fs).1.isSome then
        (env.MkdirAll (imgDir r msg) perm0755 fs).2
      else if (env.WriteFile (imgName r msg) (.raw (FrameMessage.GetFrame msg.GetFrame)) perm0755
          (env.MkdirAll (imgDir r msg) perm0755 fs).2).1.isSome then
        (env.WriteFile (imgName r msg) (.raw (FrameMessage.GetFrame msg.GetFrame)) perm0755
          (env.MkdirAll (imgDir r msg) perm0755 fs).2).2
      else if (env.MkdirAll (jsonDir r msg) perm0755
          (env.WriteFile (imgName r msg) (.raw (FrameMessage.GetFrame msg.GetFrame)) perm0755
            (env.MkdirAll (imgDir r msg) perm0755 fs).2).2).1.isSome then
        (env.MkdirAll (jsonDir r msg) perm0755
          (env.WriteFile (imgName r msg) (.raw (FrameMessage.GetFrame msg.GetFrame)) perm0755
            (env.MkdirAll (imgDir r msg) perm0755 fs).2).2).2
      else
        match jsonMarshal (record msg) with
        | .error _ =>
          (env.MkdirAll (jsonDir r msg) perm0755
            (env.WriteFile (imgName r msg) (.raw (FrameMessage.GetFrame msg.GetFrame)) perm0755
              (env.MkdirAll (imgDir r msg) perm0755 fs).2).2).2
        | .ok obj =>
          (env.WriteFile (recordName r msg) (.jsonText obj) perm0755
            (env.MkdirAll (jsonDir r msg) perm0755
              (env.WriteFile (imgName r msg) (.raw (FrameMessage.GetFrame msg.GetFrame)) perm0755
                (env.MkdirAll (imgDir r msg) perm0755 fs).2).2).2).2 := by
  have hc := onRecordMsg_cases env r payload (World.fresh fs) msg h
  simp only [World.fresh] at hc
  rcases hc with ⟨e, h1, hfs, _⟩ | ⟨e, h1, h2, hfs, _⟩ | ⟨e, h1, h2, h3, hfs, _⟩ |
      ⟨e, h1, h2, h3, hm, hfs, _⟩ | ⟨obj, h1, h2, h3, hm, hfs, _⟩
  all_goals simp only [fsAfter, World.fresh, hfs]
  · simp [h1]
  · simp [h1, h2]
  · simp [h1, h2, h3]
  · simp [h1, h2, h3, hm]
  · simp [h1, h2, h3, hm]

/-- On the reference file system, a sequence "create a directory, write a
file, create a directory, possibly write another file" that stops at the first
failure leaves a state on which running it again changes nothing. -/
theorem MemFS.pipeline_idem (D1 N1 D2 : String) (X : FileData) (last : Option (String × FileData))
    (p : Nat) (hne : ∀ nx, last = some nx → components N1 ≠ components nx.1)
    (G : MemFS → MemFS)
    (hG : ∀ t, G t =
      if (MemFS.MkdirAll D1 p t).1.isSome then (MemFS.MkdirAll D1 p t).2
      else if (MemFS.WriteFile N1 X p (MemFS.MkdirAll D1 p t).2).1.isSome then
        (MemFS.WriteFile N1 X p (MemFS.MkdirAll D1 p t).2).2
      else if (MemFS.MkdirAll D2 p (MemFS.WriteFile N1 X p (MemFS.MkdirAll D1 p t).2).2).1.isSome
        then (MemFS.MkdirAll D2 p (MemFS.WriteFile N1 X p (MemFS.MkdirAll D1 p t).2).2).2
      else match last with
        | none => (MemFS.MkdirAll D2 p (MemFS.WriteFile N1 X p (MemFS.MkdirAll D1 p t).2).2).2
        | some nx => (MemFS.WriteFile nx.1 nx.2 p
            (MemFS.MkdirAll D2 p (MemFS.WriteFile N1 X p (MemFS.MkdirAll D1 p t).2).2).2).2)
    (s : MemFS) : G (G s) = G s := by
  rcases ha : (MemFS.MkdirAll D1 p s).1 with _ | e1
  swap
  · -- the first directory creation fails
    have hT : G s = (MemFS.MkdirAll D1 p s).2 := by rw [hG s]; simp [ha]
    rw [hT, hG, MemFS.MkdirAll_idem]; simp [ha]
  rcases hb : (MemFS.WriteFile N1 X p (MemFS.MkdirAll D1 p s).2).1 with _ | e2
  swap
  · -- the first write fails
    have hb2 := MemFS.WriteFile_failed _ _ _ _ e2 hb
    have hT : G s = (MemFS.MkdirAll D1 p s).2 := by rw [hG s]; simp [ha, hb, hb2]
    rw [hT, hG, MemFS.MkdirAll_idem]; simp [ha, hb, hb2]
  -- the first write succeeds
  have hb2 := MemFS.WriteFile_ok _ _ _ _ hb
  have hbN1 : (MemFS.WriteFile N1 X p (MemFS.MkdirAll D1 p s).2).2 (components N1)
      = some (Node.file X) := by rw [hb2]; exact MemFS.set_same _ _ _
  have hkeepAB := MemFS.WriteFile_keeps_dir N1 X p (MemFS.MkdirAll D1 p s).2
  have hkeepBC := MemFS.MkdirAll_keeps D2 p (MemFS.WriteFile N1 X p (MemFS.MkdirAll D1 p s).2).2
  have redo : ∀ t : MemFS,
      (∀ k, (MemFS.MkdirAll D2 p (MemFS.WriteFile N1 X p (MemFS.MkdirAll D1 p s).2).2).2 k
          = some Node.dir → t k = some Node.dir) →
      t (components N1) = some (Node.file X) →
      MemFS.MkdirAll D1 p t = (none, t) ∧ MemFS.WriteFile N1 X p t = (none, t) := by
    intro t ht htN
    exact ⟨MemFS.MkdirAll_stable D1 p s t ha
        (fun k hk => ht k (hkeepBC k _ (hkeepAB k hk))),
      MemFS.WriteFile_stable N1 X p _ t hb
        (fun k hk => ht k (hkeepBC k _ (hkeepAB k hk))) htN⟩
  rcases hc : (MemFS.MkdirAll D2 p (MemFS.WriteFile N1 X p (MemFS.MkdirAll D1 p s).2).2).1
    with _ | e3
  swap
  · -- the second directory creation fails
    have hT : G s = (MemFS.MkdirAll D2 p (MemFS.WriteFile N1 X p (MemFS.MkdirAll D1 p s).2).2).2 := by
      rw [hG s]; simp [ha, hb, hc]
    obtain ⟨r1, r2⟩ := redo _ (fun k h => h) (hkeepBC _ _ hbN1)
    rw [hT, hG, r1]
    simp only [Option.isSome_none, Bool.false_eq_true, if_false, r2]
    rw [MemFS.MkdirAll_idem]; simp [hc]
  cases last with
  | none =>
    have hT : G s = (MemFS.MkdirAll D2 p (MemFS.WriteFile N1 X p (MemFS.MkdirAll D1 p s).2).2).2 := by
      rw [hG s]; simp [ha, hb, hc]
    obtain ⟨r1, r2⟩ := redo _ (fun k h => h) (hkeepBC _ _ hbN1)
    rw [hT, hG, r1]
    simp only [Option.isSome_none, Bool.false_eq_true, if_false, r2]
    rw [MemFS.MkdirAll_idem]; simp [hc]
  | some nx =>
    have hT : G s = (MemFS.WriteFile nx.1 nx.2 p
        (MemFS.MkdirAll D2 p (MemFS.WriteFile N1 X p (MemFS.MkdirAll D1 p s).2).2).2).2 := by
      rw [hG s]; simp [ha, hb, hc]
    rcases hd : (MemFS.WriteFile nx.1 nx.2 p
        (MemFS.MkdirAll D2 p (MemFS.WriteFile N1 X p (MemFS.MkdirAll D1 p s).2).2).2).1 with _ | e4
    swap
    · -- the second write fails
      have hd2 := MemFS.WriteFile_failed _ _ _ _ e4 hd
      obtain ⟨r1, r2⟩ := redo _ (fun k h => h) (hkeepBC _ _ hbN1)
      rw [hT, hd2, hG, r1]
      simp only [Option.isSome_none, Bool.false_eq_true, if_false, r2]
      rw [MemFS.MkdirAll_idem]; simp [hc, hd2]
    · -- every call succeeds
      have hd2 := MemFS.WriteFile_ok _ _ _ _ hd
      have hkeepCD := MemFS.WriteFile_keeps_dir nx.1 nx.2 p
        (MemFS.MkdirAll D2 p (MemFS.WriteFile N1 X p (MemFS.MkdirAll D1 p s).2).2).2
      have hdN1 : (MemFS.WriteFile nx.1 nx.2 p
          (MemFS.MkdirAll D2 p (MemFS.WriteFile N1 X p (MemFS.MkdirAll D1 p s).2).2).2).2
            (components N1) = some (Node.file X) := by
        rw [hd2, MemFS.set_other _ _ _ _ (hne nx rfl)]
        exact hkeepBC _ _ hbN1
      have hdN2 : (MemFS.WriteFile nx.1 nx.2 p
          (MemFS.MkdirAll D2 p (MemFS.WriteFile N1 X p (MemFS.MkdirAll D1 p s).2).2).2).2
            (components nx.1) = some (Node.file nx.2) := by
        rw [hd2]; exact MemFS.set_same _ _ _
      obtain ⟨r1, r2⟩ := redo _ hkeepCD hdN1
      have r3 := MemFS.MkdirAll_stable D2 p _ _ hc hkeepCD
      have r4 := MemFS.WriteFile_stable nx.1 nx.2 p _ _ hd hkeepCD hdN2
      rw [hT, hG, r1]
      simp only [Option.isSome_none, Bool.false_eq_true, if_false, r2, r3, r4]

/-- Claim C5. Idempotence on the reference file system: for every decoder,
recorder, payload and initial state, running the handler a second time on the
state the first run left gives that same state (the same directories, the
same files, the same contents). -/
theorem C5_idempotent (unmarshal : Bytes → Except String RecordMessage) (r : Recorder)
    (payload : Bytes) (s : MemFS) :
    fsAfter (memEnv unmarshal) r payload (fsAfter (memEnv unmarshal) r payload s)
      = fsAfter (memEnv unmarshal) r payload s := by
  rcases hdec : unmarshal payload with e | msg
  · rw [fsAfter_failed (memEnv unmarshal) r payload _ e hdec,
      fsAfter_failed (memEnv unmarshal) r payload _ e hdec]
  · have hF := fun t => fsAfter_decoded (memEnv unmarshal) r payload t msg hdec
    rcases hm : jsonMarshal (record msg) with e | obj
    · exact MemFS.pipeline_idem (imgDir r msg) (imgName r msg) (jsonDir r msg)
        (.raw (FrameMessage.GetFrame msg.GetFrame)) none perm0755 (fun nx h => by cases h)
        (fsAfter (memEnv unmarshal) r payload)
        (fun t => by rw [hF t, hm]; rfl) s
    · exact MemFS.pipeline_idem (imgDir r msg) (imgName r msg) (jsonDir r msg)
        (.raw (FrameMessage.GetFrame msg.GetFrame)) (some (recordName r msg, .jsonText obj))
        perm0755
        (fun nx h => by
          cases h
          exact components_imgName_ne_recordName r msg msg)
        (fsAfter (memEnv unmarshal) r payload)
        (fun t => by rw [hF t, hm]; rfl) s

/-- The image reference of the record, joined to the record-set directory, is
the image name. -/
theorem joined_imgRef (r : Recorder) (msg : RecordMessage) :
    r.recordsDir ++ "/" ++ msg.recordSet ++ "/" ++ (record msg).CamImageArray = imgName r msg := by
  rw [imgName_eq]
  show r.recordsDir ++ "/" ++ msg.recordSet ++ "/" ++ imgRef msg = _
  rw [imgRef_eq]
  apply String.ext
  simp [String.data_append]

/-- Claim C3. Round trip of the image reference. For every decoded message,
records directory and initial state of the reference file system: whenever the
run serialises a record and writes raw bytes, the name written to is
`recordsDir/recordSet/` followed by the record's `CamImageArray`; and after a
run in which no file-system call fails, a record has been serialised, the
frame bytes have been written to that name, and the file read back at that
name holds exactly the frame bytes. -/
theorem C3_image_reference (unmarshal : Bytes → Except String RecordMessage) (r : Recorder)
    (payload : Bytes) (s : MemFS) (msg : RecordMessage) (h : unmarshal payload = .ok msg) :
    (∀ v e name b p err, Call.marshal v e ∈ callsOf (memEnv unmarshal) r payload s →
        Call.writeFile name (.raw b) p err ∈ callsOf (memEnv unmarshal) r payload s →
        name = r.recordsDir ++ "/" ++ msg.recordSet ++ "/" ++ v.CamImageArray) ∧
    ((∀ c ∈ callsOf (memEnv unmarshal) r payload s, c.fsFailed = false) →
      ∃ v e, Call.marshal v e ∈ callsOf (memEnv unmarshal) r payload s ∧
        Call.writeFile (r.recordsDir ++ "/" ++ msg.recordSet ++ "/" ++ v.CamImageArray)
            (.raw (FrameMessage.GetFrame msg.frame)) perm0755 none
          ∈ callsOf (memEnv unmarshal) r payload s ∧
        MemFS.ReadFile (r.recordsDir ++ "/" ++ msg.recordSet ++ "/" ++ v.CamImageArray)
            (fsAfter (memEnv unmarshal) r payload s)
          = some (.raw (FrameMessage.GetFrame msg.frame))) := by
  have hc := onRecordMsg_cases (memEnv unmarshal) r payload (World.fresh s) msg h
  simp only [World.fresh, List.nil_append, memEnv] at hc
  have hread : ∀ t : MemFS, t (components (imgName r msg))
        = some (Node.file (.raw (FrameMessage.GetFrame msg.frame))) →
      MemFS.ReadFile (r.recordsDir ++ "/" ++ msg.recordSet ++ "/" ++ (record msg).CamImageArray) t
        = some (.raw (FrameMessage.GetFrame msg.frame)) := by
    intro t ht
    rw [joined_imgRef, MemFS.ReadFile, ht]
  rcases hc with ⟨e, _, _, hcalls⟩ | ⟨e, _, _, _, hcalls⟩ | ⟨e, _, _, _, _, hcalls⟩ |
      ⟨e, h1, h2, h3, hm, hfs, hcalls⟩ | ⟨obj, h1, h2, h3, hm, hfs, hcalls⟩
  all_goals simp only [callsOf, fsAfter, World.fresh, memEnv, hcalls]
  · exact ⟨fun v e name b p err hm => by simp at hm, fun hf => by simp [Call.fsFailed] at hf⟩
  · exact ⟨fun v e name b p err hm => by simp at hm, fun hf => by simp [Call.fsFailed] at hf⟩
  · exact ⟨fun v e name b p err hm => by simp at hm, fun hf => by simp [Call.fsFailed] at hf⟩
  · refine ⟨fun v e name b p err hv hw => ?_, fun _ => ⟨record msg, some e, by simp, ?_, ?_⟩⟩
    · simp at hv hw
      rw [hv.1, joined_imgRef]; exact hw.1
    · rw [joined_imgRef]; simp [RecordMessage.GetFrame]
    · rw [hfs]
      apply hread
      apply MemFS.MkdirAll_keeps
      rw [MemFS.WriteFile_ok _ _ _ _ h2]
      exact MemFS.set_same _ _ _
  · refine ⟨fun v e name b p err hv hw => ?_, fun hf => ⟨record msg, none, by simp, ?_, ?_⟩⟩
    · simp at hv hw
      rw [hv.1, joined_imgRef]; exact hw.1
    · rw [joined_imgRef]; simp [RecordMessage.GetFrame]
    · rw [hfs]
      apply hread
      have hok : (MemFS.WriteFile (recordName r msg) (.jsonText obj) perm0755
          (MemFS.MkdirAll (jsonDir r msg) perm0755
            (MemFS.WriteFile (imgName r msg) (.raw (FrameMessage.GetFrame msg.GetFrame)) perm0755
              (MemFS.MkdirAll (imgDir r msg) perm0755 s).2).2).2).1 = none := by
        have := hf (Call.writeFile (recordName r msg) (.jsonText obj) perm0755
          (MemFS.WriteFile (recordName r msg) (.jsonText obj) perm0755
            (MemFS.MkdirAll (jsonDir r msg) perm0755
              (MemFS.WriteFile (imgName r msg) (.raw (FrameMessage.GetFrame msg.GetFrame))
                perm0755 (MemFS.MkdirAll (imgDir r msg) perm0755 s).2).2).2).1) (by simp)
        simpa [Call.fsFailed] using this
      rw [MemFS.WriteFile_ok _ _ _ _ hok,
        MemFS.set_other _ _ _ _ (components_imgName_ne_recordName r msg msg)]
      apply MemFS.MkdirAll_keeps
      rw [MemFS.WriteFile_ok _ _ _ _ h2]
      exact MemFS.set_same _ _ _

/-- Witness of C3: the run of the test; the image read back through the
reference of the record holds "frame content". -/
theorem C3_witness :
    testUnmarshal [0] = .ok testMessage ∧
      (∀ c ∈ callsOf (memEnv testUnmarshal) testRecorder [0] testFS, c.fsFailed = false) ∧
      MemFS.ReadFile "tmp/default/cam/cam-image_array_1.jpg"
          (fsAfter (memEnv testUnmarshal) testRecorder [0] testFS)
        = some (.raw frameContent) ∧
      ∃ v e, Call.marshal v e ∈ callsOf (memEnv testUnmarshal) testRecorder [0] testFS ∧
        Call.writeFile
            (testRecorder.recordsDir ++ "/" ++ testMessage.recordSet ++ "/" ++ v.CamImageArray)
            (.raw (FrameMessage.GetFrame testMessage.frame)) perm0755 none
          ∈ callsOf (memEnv testUnmarshal) testRecorder [0] testFS ∧
        MemFS.ReadFile
            (testRecorder.recordsDir ++ "/" ++ testMessage.recordSet ++ "/" ++ v.CamImageArray)
            (fsAfter (memEnv testUnmarshal) testRecorder [0] testFS)
          = some (.raw (FrameMessage.GetFrame testMessage.frame)) :=
  ⟨rfl, by decide, by decide,
    (C3_image_reference testUnmarshal testRecorder [0] testFS testMessage rfl).2 (by decide)⟩

end recorder
